import Mathlib

/-!
Verification of the ClaimWise claim-processing core against its specification.

The Python sources embedded here (shallowly) are:
  * src/ml/fraud_detection_system/preprocess.py
      (money/cost extraction, date parsing, token overlap, consistent_value,
       build_features)
  * src/backend/services/routing_service.py
      (score categorisation, apply_routing_rules, rule store CRUD)
  * src/backend/routers/routing.py (delete endpoint)

Python strings are modelled as List Char, Python floats as rationals,
Python None / missing dict keys as Option.  Functions that can raise at
runtime return Except.
-/

namespace ClaimWise

/-! ## Basic character and string helpers (Python str operations, ASCII) -/

/-- ASCII digit test; the 0-9 class used by the money and date regexes. -/
def isDigitCh (c : Char) : Bool :=
  '0' ≤ c && c ≤ '9'

/-- Python regex whitespace class over ASCII input: space, tab, LF, VT, FF, CR. -/
def isSpaceCh (c : Char) : Bool :=
  c = ' ' || c = '\t' || c = '\n' || c = '\x0b' || c = '\x0c' || c = '\r'

/-- The character class A-Za-z0-9 used by token_overlap when splitting locations. -/
def isAlnumCh (c : Char) : Bool :=
  ('A' ≤ c && c ≤ 'Z') || ('a' ≤ c && c ≤ 'z') || isDigitCh c

/-- str.lower over the ASCII range (all keywords searched for are ASCII). -/
def lowerChars (s : List Char) : List Char :=
  s.map Char.toLower

/-- Does the needle occur as a prefix of the haystack, character by character? -/
def matchesAt : List Char → List Char → Bool
  | [], _ => true
  | _ :: _, [] => false
  | n :: ns, h :: hs => n = h && matchesAt ns hs

/-- Python str.find: index of the first occurrence of the needle, none if absent. -/
def strFind (hay needle : List Char) : Option Nat :=
  go hay 0
where
  go : List Char → Nat → Option Nat
    | [], i => if needle = [] then some i else none
    | h :: hs, i => if matchesAt needle (h :: hs) then some i else go hs (i + 1)

/-- Python substring containment (the in operator on str). -/
def containsSub (hay needle : List Char) : Bool :=
  (strFind hay needle).isSome

/-- Python str.strip with no argument: remove leading and trailing whitespace. -/
def pyStrip (s : List Char) : List Char :=
  ((s.dropWhile isSpaceCh).reverse.dropWhile isSpaceCh).reverse

/-! ## The MONEY_PAT scanner

MONEY_PAT from preprocess.py:

  (?:[$₹]|i)? \s* ( [0-9]\x7b1,3\x7d (?:[.,][0-9]\x7b3\x7d)* (?:[.,][0-9]\x7b2\x7d)? | [0-9]+ )

The captured group starts with a digit, so the second alternative of the group
can never fire when the first fails (the first succeeds whenever a digit is
present, since its two tail quantifiers may match empty).  Greedy matching of
the quantifiers never needs to backtrack here because every separator is a
non-digit and each quantified piece demands an exact digit count, so the
matcher below is the deterministic residue of the regex. -/

/-- Greedily take up to n leading digits. -/
def takeDigitsUpTo : Nat → List Char → List Char × List Char
  | 0, s => ([], s)
  | _ + 1, [] => ([], [])
  | n + 1, c :: rest =>
    if isDigitCh c then
      let (ds, r) := takeDigitsUpTo n rest
      (c :: ds, r)
    else ([], c :: rest)

/-- Is the character a thousands separator, i.e. in the class [.,]? -/
def isSepCh (c : Char) : Bool :=
  c = '.' || c = ','

/-- Greedy star over a separator followed by exactly three digits. -/
def sepGroups : List Char → List Char × List Char
  | p :: d1 :: d2 :: d3 :: rest =>
    if isSepCh p && isDigitCh d1 && isDigitCh d2 && isDigitCh d3 then
      let (g, r) := sepGroups rest
      (p :: d1 :: d2 :: d3 :: g, r)
    else ([], p :: d1 :: d2 :: d3 :: rest)
  | s => ([], s)

/-- Optional separator followed by exactly two digits. -/
def sepTail2 : List Char → List Char × List Char
  | p :: d1 :: d2 :: rest =>
    if isSepCh p && isDigitCh d1 && isDigitCh d2 then
      ([p, d1, d2], rest)
    else ([], p :: d1 :: d2 :: rest)
  | s => ([], s)

/-- The captured number group of MONEY_PAT at the head of the input:
up to three digits, then separator-digit groups, then an optional
separator-two-digit tail.  Fails unless the head is a digit. -/
def numToken : List Char → Option (List Char × List Char)
  | [] => none
  | c :: rest =>
    if isDigitCh c then
      let (ds, r1) := takeDigitsUpTo 2 rest
      let (g, r2) := sepGroups r1
      let (t, r3) := sepTail2 r2
      some (c :: (ds ++ g ++ t), r3)
    else none

/-- After the optional currency mark: \s* then the number group. -/
def spacedNumToken (s : List Char) : Option (List Char × List Char) :=
  numToken (s.dropWhile isSpaceCh)

/-- One attempt of MONEY_PAT at a fixed position: optional [$₹]|i mark
(greedy, with regex backtracking to the no-mark branch), \s*, number group.
Returns the captured group and the remainder of the input after the match. -/
def moneyMatchAt : List Char → Option (List Char × List Char)
  | [] => none
  | c :: rest =>
    if c = '$' || c = '₹' || c = 'i' then
      match spacedNumToken rest with
      | some r => some r
      | none => spacedNumToken (c :: rest)
    else spacedNumToken (c :: rest)

/-- re.findall over MONEY_PAT: scan left to right, collecting non-overlapping
matches.  Every match consumes at least one character (its captured digit), so
fuel equal to the input length is enough to exhaust the scan. -/
def moneyScanGo : Nat → List Char → List (List Char)
  | 0, _ => []
  | _ + 1, [] => []
  | fuel + 1, c :: tail =>
    match moneyMatchAt (c :: tail) with
    | some (cap, rest) => cap :: moneyScanGo fuel rest
    | none => moneyScanGo fuel tail

/-- All captured money groups of the text, in scan order. -/
def moneyFindAll (s : List Char) : List (List Char) :=
  moneyScanGo s.length s

/-- re.search over MONEY_PAT: the first captured group, if any. -/
def moneySearch (s : List Char) : Option (List Char) :=
  (moneyFindAll s).head?

/-! ## to_float_money -/

/-- Numeric value of a digit list (most significant first). -/
def digitsToNat (s : List Char) : Nat :=
  s.foldl (fun acc c => acc * 10 + (c.toNat - 48)) 0

/-- Python float() restricted to the strings this program ever passes it:
after comma removal a money capture consists of digits and dots only.
Zero dots parse as an integer, one dot as a decimal, anything else raises
(so the caller catches and yields none).  The full float() grammar (signs,
exponents, underscores, inf and nan) is unreachable from those captures. -/
def pyFloatParse (s : List Char) : Option ℚ :=
  if s.all fun c => isDigitCh c || c = '.' then
    match s.splitOn '.' with
    | [a] => if a = [] then none else some (digitsToNat a : ℚ)
    | [a, b] =>
      if a = [] && b = [] then none
      else some ((digitsToNat a : ℚ) + (digitsToNat b : ℚ) / ((10 : ℚ) ^ b.length))
    | _ => none
  else none

/-- to_float_money from preprocess.py: falsy input gives None; otherwise strip
commas and currency signs, strip leading i marks and whitespace, then float(). -/
def to_float_money (s : List Char) : Option ℚ :=
  if s = [] then none
  else
    let s2 := s.filter fun c => c ≠ ',' && c ≠ '₹' && c ≠ '$'
    let s3 := pyStrip (s2.dropWhile fun c => c = 'i')
    pyFloatParse s3

/-! ## Cost extraction (preprocess.py lines 194-225) -/

/-- The ordered cost keyword anchors searched by extract_fields_from_text. -/
def costKeywords : List (List Char) :=
  ["estimated damage cost", "estimated damage", "damage estimate", "damage cost",
   "total amount", "total cost", "bill amount", "charges", "amount due",
   "claim amount", "settlement amount"].map String.toList

/-- Python truthiness conjunction (cost and cost > 0) on an optional float. -/
def costPos : Option ℚ → Bool
  | some v => 0 < v
  | none => false

/-- The keyword loop: for each anchor in order, find its first occurrence in the
lowercased text, take the first money capture in the 150-character window of
the original text, parse it, and break on a positive value; otherwise keep the
last parsed value and continue. -/
def keywordCostScan (text lowText : List Char) : List (List Char) → Option ℚ → Option ℚ
  | [], cost => cost
  | key :: keys, cost =>
    match strFind lowText key with
    | none => keywordCostScan text lowText keys cost
    | some idx =>
      match moneySearch ((text.drop idx).take 150) with
      | none => keywordCostScan text lowText keys cost
      | some cap =>
        let c := to_float_money cap
        if costPos c then c else keywordCostScan text lowText keys c

/-- The fallback: when the loop left cost as None or 0, parse the first ten
money captures of the whole text, keep the values above 100, and take their
maximum if any; otherwise the cost is unchanged. -/
def costFallback (text : List Char) (cost : Option ℚ) : Option ℚ :=
  if cost = none || cost = some 0 then
    let vals := (((moneyFindAll text).take 10).filterMap to_float_money).filter
      fun v => decide (100 < v)
    match vals.max? with
    | some m => some m
    | none => cost
  else cost

/-- The complete cost computation of extract_fields_from_text. -/
def extractCost (text : List Char) : Option ℚ :=
  costFallback text (keywordCostScan text (lowerChars text) costKeywords none)

/-- The final gate: the estimated_damage_cost field is assigned only when the
computed cost is not None and greater than zero. -/
def guardPos : Option ℚ → Option ℚ
  | some v => if 0 < v then some v else none
  | none => none

/-! ## Labelled-line matchers for injuries and total loss

INJURY_LINE_PAT:  injuries?\s*reported\s*:\s*(true|false|yes|no)   IGNORECASE
total-loss lines: total\s*loss\s*:\s*(true|yes|1) and (false|no|0) IGNORECASE

These regexes are linear: literal words, \s* gaps, a colon, then an
alternation of literal words.  Since every \s* is followed by a
non-whitespace literal, greedy whitespace consumption is exact; the only
backtracking point is the optional s of injuries?, which is tried first
with the s consumed and then without. -/

/-- Consume a literal case-insensitively (both sides lowered over ASCII). -/
def stripCI : List Char → List Char → Option (List Char)
  | [], s => some s
  | _ :: _, [] => none
  | l :: ls, c :: cs => if c.toLower = l.toLower then stripCI ls cs else none

/-- First alternative that is a case-insensitive prefix; returns the
alternative itself (its canonical lowercase spelling) and the remainder. -/
def matchAltsCI (alts : List (List Char)) (s : List Char) : Option (List Char) :=
  alts.findSome? fun a => (stripCI a s).map fun _ => a

/-- The part of INJURY_LINE_PAT after injuries?: \s* reported \s* : \s* (alts). -/
def injuryLineTail (s : List Char) : Option (List Char) :=
  match stripCI "reported".toList (s.dropWhile isSpaceCh) with
  | none => none
  | some r1 =>
    match r1.dropWhile isSpaceCh with
    | ':' :: r2 => matchAltsCI (["true", "false", "yes", "no"].map String.toList)
        (r2.dropWhile isSpaceCh)
    | _ => none

/-- INJURY_LINE_PAT attempted at one position, with the injuries?/injurie
backtracking. -/
def injuryMatchAt (s : List Char) : Option (List Char) :=
  match stripCI "injurie".toList s with
  | none => none
  | some r =>
    match r with
    | c :: r2 =>
      if c.toLower = 's' then
        match injuryLineTail r2 with
        | some cap => some cap
        | none => injuryLineTail r
      else injuryLineTail r
    | [] => injuryLineTail r

/-- re.search over INJURY_LINE_PAT: captured word (canonical lowercase). -/
def searchInjury : List Char → Option (List Char)
  | [] => none
  | c :: rest =>
    match injuryMatchAt (c :: rest) with
    | some cap => some cap
    | none => searchInjury rest

/-- A total\s*loss\s*:\s*(alts) attempt at one position. -/
def totalLossMatchAt (alts : List (List Char)) (s : List Char) : Bool :=
  match stripCI "total".toList s with
  | none => false
  | some r1 =>
    match stripCI "loss".toList (r1.dropWhile isSpaceCh) with
    | none => false
    | some r2 =>
      match r2.dropWhile isSpaceCh with
      | ':' :: r3 => (matchAltsCI alts (r3.dropWhile isSpaceCh)).isSome
      | _ => false

/-- re.search over a total-loss pattern: does any position match? -/
def searchTotalLoss (alts : List (List Char)) : List Char → Bool
  | [] => false
  | c :: rest => totalLossMatchAt alts (c :: rest) || searchTotalLoss alts rest

/-! ## Text severity indicator (preprocess.py lines 233-250) -/

def severityKeywordsHigh : List (List Char) :=
  ["critical", "severe", "major", "catastrophic", "totaled", "write-off",
   "life-threatening", "hospitalized", "surgery", "fracture", "broken"].map String.toList

def severityKeywordsMed : List (List Char) :=
  ["moderate", "significant", "substantial", "serious", "injury", "damaged"].map String.toList

/-- Count keyword hits in the lowered text and map them to a tier; the else
branch stores None, modelled as the absent indicator. -/
def textSeverityOf (textLower : List Char) : Option String :=
  let hc := (severityKeywordsHigh.filter fun kw => containsSub textLower kw).length
  let mc := (severityKeywordsMed.filter fun kw => containsSub textLower kw).length
  if hc ≥ 2 then some "high"
  else if hc ≥ 1 || mc ≥ 2 then some "medium"
  else if mc ≥ 1 then some "low"
  else none

/-! ## The extractor record

extract_fields_from_text builds a dict; the fields below embed the parts of it
with genuine parse logic (lines 189-252 of preprocess.py): injuries, cost,
total-loss flag and the text severity tiers.  The remaining fields of the dict
(claim and report identifiers, dates, location, registration) are each a
single regex match stored verbatim under an if m: guard, so they are present
exactly when their regex matched and carry no computed value. -/

structure ExtractedFields where
  source : String
  injuries_reported : Option ℤ
  total_loss_flag : Option ℤ
  text_severity_indicator : Option String
  estimated_damage_cost : Option ℚ
  total_amount : Option ℚ
  deriving DecidableEq, Repr

/-- extract_fields_from_text restricted to the embedded fields. -/
def extract_fields_from_text (text : List Char) (source : String) : ExtractedFields :=
  let lowText := lowerChars text
  let cost := guardPos (extractCost text)
  { source := source
    injuries_reported :=
      match searchInjury text with
      | some w => some (if w = "true".toList || w = "yes".toList || w = "1".toList then 1 else 0)
      | none => none
    total_loss_flag :=
      if searchTotalLoss (["true", "yes", "1"].map String.toList) text then some 1
      else if searchTotalLoss (["false", "no", "0"].map String.toList) text then some 0
      else none
    text_severity_indicator := textSeverityOf lowText
    estimated_damage_cost := cost
    total_amount := if source = "hospital" then cost else none }

/-! ## parse_date_any (preprocess.py lines 77-85)

datetime.strptime compiles each directive to a regex and requires the whole
string to match: Y is exactly four digits, m is (1[0-2]|0[1-9]|[1-9]) and
d is (3[01]|[12]\d|0[1-9]|[1-9]| [1-9]), alternatives tried in that order
with backtracking against the rest of the format.  The resulting datetime
construction rejects out-of-range days (and the four-zero year), which
strptime surfaces as ValueError, caught by parse_date_any to try the next
format.  Dates subtract to a timedelta whose days field is the difference
of their day numbers. -/

/-- Candidate parses for the %Y directive: exactly four digits. -/
def yearAlts : List Char → List (Nat × List Char)
  | a :: b :: c :: d :: rest =>
    if isDigitCh a && isDigitCh b && isDigitCh c && isDigitCh d then
      [(digitsToNat [a, b, c, d], rest)]
    else []
  | _ => []

/-- Candidate parses for %m, in regex alternative order. -/
def monthAlts : List Char → List (Nat × List Char)
  | a :: b :: rest =>
    (if a = '1' && ('0' ≤ b && b ≤ '2') then [(digitsToNat [a, b], rest)] else []) ++
    (if a = '0' && ('1' ≤ b && b ≤ '9') then [(digitsToNat [a, b], rest)] else []) ++
    (if '1' ≤ a && a ≤ '9' then [(digitsToNat [a], b :: rest)] else [])
  | [a] => if '1' ≤ a && a ≤ '9' then [(digitsToNat [a], [])] else []
  | [] => []

/-- Candidate parses for %d, in regex alternative order. -/
def dayAlts : List Char → List (Nat × List Char)
  | a :: b :: rest =>
    (if a = '3' && ('0' ≤ b && b ≤ '1') then [(digitsToNat [a, b], rest)] else []) ++
    (if ('1' ≤ a && a ≤ '2') && isDigitCh b then [(digitsToNat [a, b], rest)] else []) ++
    (if a = '0' && ('1' ≤ b && b ≤ '9') then [(digitsToNat [a, b], rest)] else []) ++
    (if '1' ≤ a && a ≤ '9' then [(digitsToNat [a], b :: rest)] else []) ++
    (if a = ' ' && ('1' ≤ b && b ≤ '9') then [(digitsToNat [b], rest)] else [])
  | [a] => if '1' ≤ a && a ≤ '9' then [(digitsToNat [a], [])] else []
  | [] => []

/-- Consume one literal separator character. -/
def litSep (p : Char) : List Char → Option (List Char)
  | c :: rest => if c = p then some rest else none
  | [] => none

/-- Match a three-directive format with a fixed separator against the whole
string, backtracking through the candidate lists in priority order. -/
def fmtMatch (pa pb pc : List Char → List (Nat × List Char)) (sep : Char)
    (s : List Char) : Option (Nat × Nat × Nat) :=
  (pa s).findSome? fun av =>
    (litSep sep av.2).bind fun r1 =>
      (pb r1).findSome? fun bv =>
        (litSep sep bv.2).bind fun r2 =>
          (pc r2).findSome? fun cv =>
            if cv.2 = [] then some (av.1, bv.1, cv.1) else none

def isLeapYear (y : Nat) : Bool :=
  y % 4 = 0 && (y % 100 ≠ 0 || y % 400 = 0)

def daysInMonth (y m : Nat) : Nat :=
  if m = 2 then (if isLeapYear y then 29 else 28)
  else if m = 4 || m = 6 || m = 9 || m = 11 then 30
  else 31

/-- The datetime constructor check reached through strptime: the regexes
already bound month and day from below, so what remains is the year range
and the day against the month length. -/
def validYMD (y m d : Nat) : Bool :=
  1 ≤ y && y ≤ 9999 && 1 ≤ m && m ≤ 12 && 1 ≤ d && d ≤ daysInMonth y m

/-- Proleptic Gregorian day number (days-from-civil); subtracting two of
these gives the days field of the corresponding timedelta. -/
def rataDie (y m d : Nat) : ℤ :=
  let yy := if m ≤ 2 then y - 1 else y
  let mp := (m + 9) % 12
  let doy := (153 * mp + 2) / 5 + d - 1
  (yy * 365 + yy / 4 - yy / 100 + yy / 400 + doy : Nat)

/-- One strptime attempt: match the format shape, then validate. -/
def tryFormat (shape : List Char → Option (Nat × Nat × Nat)) (s : List Char) :
    Option ℤ :=
  match shape s with
  | some (y, m, d) => if validYMD y m d then some (rataDie y m d) else none
  | none => none

/-- parse_date_any: falsy input is None, then the six formats in order. -/
def parse_date_any (s : Option String) : Option ℤ :=
  match s with
  | none => none
  | some str =>
    if str = "" then none
    else
      let cs := str.toList
      (tryFormat (fun t => fmtMatch yearAlts monthAlts dayAlts '-' t) cs) <|>
      (tryFormat (fun t => (fmtMatch dayAlts monthAlts yearAlts '/' t).map
        fun v => (v.2.2, v.2.1, v.1)) cs) <|>
      (tryFormat (fun t => (fmtMatch dayAlts monthAlts yearAlts '-' t).map
        fun v => (v.2.2, v.2.1, v.1)) cs) <|>
      (tryFormat (fun t => fmtMatch yearAlts monthAlts dayAlts '/' t) cs) <|>
      (tryFormat (fun t => (fmtMatch monthAlts dayAlts yearAlts '/' t).map
        fun v => (v.2.2, v.1, v.2.1)) cs) <|>
      (tryFormat (fun t => (fmtMatch dayAlts monthAlts yearAlts '.' t).map
        fun v => (v.2.2, v.2.1, v.1)) cs)

/-! ## token_overlap (preprocess.py lines 265-272) -/

/-- Maximal runs of A-Za-z0-9 characters (re.split on the complement, with
empty pieces discarded by the if t filter).  Each step consumes at least one
character, so fuel equal to the input length exhausts the scan. -/
def alnumTokensGo : Nat → List Char → List (List Char)
  | 0, _ => []
  | _ + 1, [] => []
  | fuel + 1, c :: t =>
    if isAlnumCh c then
      (c :: t.takeWhile isAlnumCh) :: alnumTokensGo fuel (t.dropWhile isAlnumCh)
    else alnumTokensGo fuel t

def alnumTokens (s : List Char) : List (List Char) :=
  alnumTokensGo s.length s

/-- The token set of a string: lowercased alphanumeric runs (strip is a
no-op on alphanumeric pieces). -/
def tokenSet (s : List Char) : Finset (List Char) :=
  ((alnumTokens s).map lowerChars).toFinset

/-- token_overlap: 0.0 when either side is falsy or tokenises to nothing,
else Jaccard overlap of the token sets. -/
def token_overlap (a b : Option String) : ℚ :=
  match a, b with
  | some sa, some sb =>
    if sa = "" || sb = "" then 0
    else if tokenSet sa.toList = ∅ || tokenSet sb.toList = ∅ then 0
    else ((tokenSet sa.toList ∩ tokenSet sb.toList).card : ℚ) /
      ((tokenSet sa.toList ∪ tokenSet sb.toList).card : ℚ)
  | _, _ => 0

/-! ## consistent_value (preprocess.py lines 309-314)

The filter excludes None and the empty string; the float(nan) member of the
exclusion tuple compares unequal to everything (including itself), so it
never excludes anything and the declared Optional[str] inputs make it dead. -/

/-- The vals list of consistent_value: observed values, stripped. -/
def observedVals (values : List (Option String)) : List String :=
  ((values.filterMap id).filter fun v => v ≠ "").map
    fun v => (pyStrip v.toList).asString

def consistent_value (values : List (Option String)) : ℚ :=
  if (observedVals values).length < 2 then 1
  else if (observedVals values).toFinset.card = 1 then 1 else 0

/-! ## Rounding

Python round(x, 4) rounds to the nearest multiple of 1/10000, ties to even.
(The binary-float representation error of the Python value is below the
claimed tolerances everywhere it is compared.) -/

def roundHalfEven (x : ℚ) : ℤ :=
  if x - ⌊x⌋ < 1 / 2 then ⌊x⌋
  else if 1 / 2 < x - ⌊x⌋ then ⌊x⌋ + 1
  else if 2 ∣ ⌊x⌋ then ⌊x⌋ else ⌊x⌋ + 1

def pyRound4 (x : ℚ) : ℚ :=
  (roundHalfEven (x * 10000) : ℚ) / 10000

/-! ## build_features (preprocess.py lines 275-438) -/

/-- The per-document field set consumed by build_features.  Every field is
optional: a missing dict key reads back as None through Series.get. -/
structure DocFields where
  rc_no : Option String := none
  dl_no : Option String := none
  patient_id : Option String := none
  hospital_code : Option String := none
  location : Option String := none
  vehicle_registration : Option String := none
  incident_date : Option String := none
  loss_date : Option String := none
  estimated_damage_cost : Option ℚ := none
  total_amount : Option ℚ := none
  injuries_reported : Option ℤ := none
  total_loss_flag : Option ℤ := none
  text_severity_indicator : Option String := none
  deriving DecidableEq, Repr

/-- The get helper of build_features: None documents yield the default. -/
def dget (s : Option DocFields) (f : DocFields → Option α) : Option α :=
  match s with
  | some doc => f doc
  | none => none

/-- Python or on an optional float against a fallback (0.0 is falsy). -/
def orQ (a : Option ℚ) (b : ℚ) : ℚ :=
  match a with
  | some v => if v = 0 then b else v
  | none => b

/-- Python or chaining on optional strings (the empty string is falsy). -/
def orS (a b : Option String) : Option String :=
  match a with
  | some s => if s = "" then b else some s
  | none => b

structure FeatureVector where
  damage_difference : ℚ
  injury_mismatch : ℤ
  date_difference_days : ℤ
  location_match : ℚ
  vehicle_match : ℚ
  rc_match : ℚ
  dl_match : ℚ
  patient_match : ℚ
  hospital_match : ℚ
  fraud_inconsistency_score : ℚ
  severity_level : String
  complexity_score : ℚ
  deriving DecidableEq, Repr

/-- Lines 281-286: relative damage difference, zero unless both costs are
truthy (present and nonzero). -/
def damageDiffOf (acord_cost loss_cost : Option ℚ) : ℚ :=
  match acord_cost, loss_cost with
  | some av, some lv => if av ≠ 0 && lv ≠ 0 then |av - lv| / max av 1 else 0
  | _, _ => 0

/-- Lines 288-294: injury mismatch, acord against loss when both known,
else acord against police, else zero. -/
def injMismatchOf (ac : DocFields) (pr lr : Option DocFields) : ℤ :=
  match ac.injuries_reported, dget lr fun d => d.injuries_reported with
  | some ai, some li => if ai ≠ li then 1 else 0
  | _, _ =>
    match ac.injuries_reported, dget pr fun d => d.injuries_reported with
    | some ai, some pi => if ai ≠ pi then 1 else 0
    | _, _ => 0

/-- Lines 296-298: absolute day gap between the acord incident date and the
loss date (or, failing that, the police incident date); zero when either
side does not parse. -/
def dateDiffOf (ac : DocFields) (pr lr : Option DocFields) : ℤ :=
  match parse_date_any ac.incident_date,
      (parse_date_any (dget lr fun d => d.loss_date)) <|>
        (parse_date_any (dget pr fun d => d.incident_date)) with
  | some a, some b => |a - b|
  | _, _ => 0

/-- Lines 300-303: best token overlap of the acord location against the
police and loss locations. -/
def locMatchOf (ac : DocFields) (pr lr : Option DocFields) : ℚ :=
  max (token_overlap ac.location (dget pr fun d => d.location))
    (token_overlap ac.location (dget lr fun d => d.location))

/-- Lines 304-306: vehicle match, 1.0 only when the acord registration is
truthy and equals the police or loss registration. -/
def vehMatchOf (ac : DocFields) (pr lr : Option DocFields) : ℚ :=
  if (match ac.vehicle_registration with | some s => s ≠ "" | none => false) &&
      (ac.vehicle_registration = dget pr (fun d => d.vehicle_registration) ||
       ac.vehicle_registration = dget lr (fun d => d.vehicle_registration)) then 1 else 0

/-- Line 331: the five-component mean behind fraud_inconsistency_score. -/
def inconsistencyOf (ac : DocFields) (pr lr : Option DocFields) : ℚ :=
  (damageDiffOf ac.estimated_damage_cost (dget lr fun d => d.estimated_damage_cost) +
    (injMismatchOf ac pr lr : ℚ) + min ((dateDiffOf ac pr lr : ℚ) / 10) 1 +
    (1 - locMatchOf ac pr lr) + (1 - vehMatchOf ac pr lr)) / 5

/-- Lines 334-409: the enhanced severity point total, factors 1 through 9
in source order, clamped at zero. -/
def severityScoreOf (ac : DocFields) (pr lr rc dl hospital : Option DocFields) : ℚ :=
  let acord_cost := ac.estimated_damage_cost
  let loss_cost := dget lr fun d => d.estimated_damage_cost
  let inconsistency := inconsistencyOf ac pr lr
  let inj_mismatch := injMismatchOf ac pr lr
  let date_diff_days := dateDiffOf ac pr lr
  let loc_match := locMatchOf ac pr lr
  let veh_match := vehMatchOf ac pr lr
  let max_cost := max (orQ loss_cost 0) (orQ acord_cost 0)
  let s1 : ℚ :=
    if max_cost > 200000 then 4
    else if max_cost > 100000 then 3
    else if max_cost > 50000 then 2
    else if max_cost > 20000 then 1 else 0
  let injuries_any : ℚ :=
    if ac.injuries_reported = some 1 then 1
    else if dget lr (fun d => d.injuries_reported) = some 1 then 1
    else if dget pr (fun d => d.injuries_reported) = some 1 then 1 else 0
  let s2 : ℚ := injuries_any * 2 + (if inj_mismatch = 1 then 1 else 0)
  let s3 : ℚ := if dget lr (fun d => d.total_loss_flag) = some 1 then 2 else 0
  let s4 : ℚ := if inconsistency > 1 / 2 then 2 else if inconsistency > 3 / 10 then 1 else 0
  let s5 : ℚ := if date_diff_days > 30 then 1 else 0
  let s6 : ℚ := if loc_match < 1 / 2 || veh_match < 1 / 2 then 1 else 0
  let hospital_cost : ℚ := orQ (dget hospital fun d => d.estimated_damage_cost)
    (orQ (dget hospital fun d => d.total_amount) 0)
  let s7 : ℚ :=
    if hospital_cost > 100000 then 3
    else if hospital_cost > 50000 then 2
    else if hospital_cost > 20000 then 1 else 0
  let text_severity := orS (dget lr fun d => d.text_severity_indicator)
    (orS ac.text_severity_indicator
      (orS (dget pr fun d => d.text_severity_indicator)
        (dget hospital fun d => d.text_severity_indicator)))
  let s8 : ℚ :=
    if text_severity = some "high" then 2
    else if text_severity = some "medium" then 1 else 0
  let docs_count : Nat := 1 + (if pr.isSome then 1 else 0) + (if lr.isSome then 1 else 0) +
    (if rc.isSome then 1 else 0) + (if dl.isSome then 1 else 0) +
    (if hospital.isSome then 1 else 0)
  let s9 : ℚ := (if docs_count ≥ 5 then 1 / 2 else 0) - (if docs_count ≤ 2 then 1 / 2 else 0)
  max 0 (s1 + s2 + s3 + s4 + s5 + s6 + s7 + s8 + s9)

/-- Lines 411-418: point total to severity level. -/
def severityLevelOf (score : ℚ) : String :=
  if score ≥ 6 then "High" else if score ≥ 3 then "Medium" else "Low"

/-- Line 421: one plus an increment per exceeded inconsistency threshold. -/
def complexityBase (inconsistency : ℚ) : ℤ :=
  1 + (if inconsistency > 1 / 5 then 1 else 0) +
    (if inconsistency > 2 / 5 then 1 else 0) + (if inconsistency > 3 / 5 then 1 else 0)

/-- Lines 420-423: rough complexity, floored at 4 under a loss-report
total-loss flag. -/
def complexityOf (ac : DocFields) (pr lr : Option DocFields) : ℤ :=
  if dget lr (fun d => d.total_loss_flag) = some 1 then
    max (complexityBase (inconsistencyOf ac pr lr)) 4
  else complexityBase (inconsistencyOf ac pr lr)

def build_features (ac : DocFields) (pr lr : Option DocFields)
    (rc dl hospital : Option DocFields := none) : FeatureVector :=
  { damage_difference := pyRound4 (damageDiffOf ac.estimated_damage_cost
      (dget lr fun d => d.estimated_damage_cost))
    injury_mismatch := injMismatchOf ac pr lr
    date_difference_days := dateDiffOf ac pr lr
    location_match := pyRound4 (locMatchOf ac pr lr)
    vehicle_match := pyRound4 (vehMatchOf ac pr lr)
    rc_match := pyRound4 (consistent_value
      [ac.rc_no, dget pr (fun d => d.rc_no), dget lr (fun d => d.rc_no),
       dget rc fun d => d.rc_no])
    dl_match := pyRound4 (consistent_value
      [ac.dl_no, dget pr (fun d => d.dl_no), dget lr (fun d => d.dl_no),
       dget dl fun d => d.dl_no])
    patient_match := pyRound4 (consistent_value
      [ac.patient_id, dget hospital fun d => d.patient_id])
    hospital_match := pyRound4 (consistent_value
      [ac.hospital_code, dget hospital fun d => d.hospital_code])
    fraud_inconsistency_score := pyRound4 (inconsistencyOf ac pr lr)
    severity_level := severityLevelOf (severityScoreOf ac pr lr rc dl hospital)
    complexity_score := (complexityOf ac pr lr : ℚ) }

/-! ## Routing service (routing_service.py)

Scores are rationals; the threshold constants 0.33, 0.67, 0.6, 2.0, 3.5 are
modelled exactly (no claim touches a binary-float boundary case). -/

/-- get_score_category with the thresholds dict flattened to its two
consulted entries (high_max is never read). -/
def get_score_category (score lowMax midMax : ℚ) : String :=
  if score ≤ lowMax then "low" else if score ≤ midMax then "mid" else "high"

def get_severity_category (severity : String) : String :=
  let s := severity.toLower
  if s = "high" then "high" else if s = "medium" then "mid" else "low"

def get_complexity_category (complexity : ℚ) : String :=
  if complexity ≤ 2 then "low" else if complexity ≤ 7 / 2 then "mid" else "high"

/-- The ml_scores dict passed to apply_routing_rules, with the defaults its
.get calls supply. -/
structure MLScores where
  fraud_score : ℚ := 0
  complexity_score : ℚ := 1
  severity_level : String := "Low"
  claim_category : String := "accident"
  deriving DecidableEq, Repr

/-- The claim_data dict: only its claim_type key is read.  An absent dict is
Option.none (an empty dict is falsy in the source's if claim_data test). -/
structure ClaimData where
  claim_type : Option String := none
  deriving DecidableEq, Repr

/-- Exceptions apply_routing_rules can raise. -/
inductive PyErr where
  | attributeError (msg : String)
  deriving DecidableEq, Repr

/-- AttributeError raised by the fraud branch: the routing reason invokes
toFixed, a JavaScript method, on a Python float. -/
def toFixedErr : PyErr :=
  PyErr.attributeError "float object has no attribute toFixed"

structure RoutingResult where
  routing_team : String
  adjuster : String
  routing_reasons : List String
  routing_reason : String
  rule_applied : Bool
  deriving DecidableEq, Repr

/-- Python format spec .1f on a rational: nearest tenth, ties to even. -/
def fmt1f (x : ℚ) : String :=
  let n := roundHalfEven (x * 10)
  let a := n.natAbs
  (if n < 0 then "-" else "") ++ toString (a / 10) ++ "." ++ toString (a % 10)

/-- apply_routing_rules from routing_service.py.  The optional Pathway
post-processing step (a module external to the embedded sources) is not
modelled; the fraud branch raises before reaching it in any case. -/
def apply_routing_rules (ml : MLScores) (claim_data : Option ClaimData) :
    Except PyErr RoutingResult :=
  let claim_type :=
    match claim_data with
    | some cd => cd.claim_type.getD "accident"
    | none => ml.claim_category
  let is_health := claim_type = "medical" || ml.claim_category = "health"
  let dept_name := if is_health then "Health Dept" else "Accident Dept"
  let _fraud_category := get_score_category ml.fraud_score (33 / 100) (67 / 100)
  let severity_category := get_severity_category ml.severity_level
  let complexity_category := get_complexity_category ml.complexity_score
  let level :=
    if severity_category = "high" || complexity_category = "high" then "High"
    else if severity_category = "mid" || complexity_category = "mid" then "Mid"
    else "Low"
  if ml.fraud_score ≥ 3 / 5 then
    -- routing_team and adjuster are assigned, but building the reason string
    -- evaluates (fraud_score * 100).toFixed(1) and raises AttributeError
    Except.error toFixedErr
  else
    let routing_team := dept_name ++ " - " ++ level
    let adjuster :=
      if level = "High" then "Senior Adjuster"
      else if level = "Mid" then "Standard Adjuster"
      else "Junior Adjuster"
    let reason := "Complexity score is " ++ fmt1f ml.complexity_score ++
      " and Severity score is " ++ ml.severity_level ++ " so routed to this team"
    Except.ok
      { routing_team := routing_team
        adjuster := adjuster
        routing_reasons := [reason]
        routing_reason := reason
        rule_applied := true }

/-! ## Rule store (routing_service.py lines 202-310) -/

/-- A stored routing rule, with the exact field set create_rule writes.
Timestamps are abstract clock ticks. -/
structure Rule where
  id : String
  name : String := ""
  description : String := ""
  enabled : Bool := true
  priority : ℤ := 0
  condition_type : Option String := none
  condition_value : Option String := none
  claim_type : Option String := none
  routing_team : String := "Fast Track"
  adjuster : String := "Standard Adjuster"
  operator : Option String := none
  threshold : Option ℚ := none
  fraud_category : Option String := none
  severity_category : Option String := none
  complexity_category : Option String := none
  created_at : Nat := 0
  updated_at : Nat := 0
  deriving DecidableEq, Repr

/-- A create payload: the optional presence of each key create_rule reads
through rule_data.get. -/
structure RuleData where
  name : Option String := none
  description : Option String := none
  enabled : Option Bool := none
  priority : Option ℤ := none
  condition_type : Option String := none
  condition_value : Option String := none
  claim_type : Option String := none
  routing_team : Option String := none
  adjuster : Option String := none
  operator : Option String := none
  threshold : Option ℚ := none
  fraud_category : Option String := none
  severity_category : Option String := none
  complexity_category : Option String := none
  deriving DecidableEq, Repr

/-- An update payload: any subset of rule keys, including the id, created_at
and updated_at keys that update_rule treats specially. -/
structure UpdateData where
  id : Option String := none
  name : Option String := none
  description : Option String := none
  enabled : Option Bool := none
  priority : Option ℤ := none
  condition_type : Option (Option String) := none
  condition_value : Option (Option String) := none
  claim_type : Option (Option String) := none
  routing_team : Option String := none
  adjuster : Option String := none
  operator : Option (Option String) := none
  threshold : Option (Option ℚ) := none
  fraud_category : Option (Option String) := none
  severity_category : Option (Option String) := none
  complexity_category : Option (Option String) := none
  created_at : Option Nat := none
  updated_at : Option Nat := none
  deriving DecidableEq, Repr

/-- The state owned by the rule store: the in-memory list, the file copy
written by _save_rules_to_file, and the reactive pipeline version.

The rules_version counter lives in the Pathway pipeline module, which is
external to the embedded sources.  Modelled from the spec: every rule
mutation notifies the pipeline through update_rules, which bumps the
monotonically increasing rules_version it later reports in routing
decisions. -/
structure StoreState where
  rules : List Rule
  savedRules : List Rule
  rulesVersion : Nat
  deriving DecidableEq, Repr

/-- create_rule: fresh id, payload fields with their .get defaults, default
priority equal to the current rule count, both timestamps now; append,
persist, notify the pipeline. -/
def create_rule (rd : RuleData) (newId : String) (now : Nat) (st : StoreState) :
    Rule × StoreState :=
  let rule : Rule :=
    { id := newId
      name := rd.name.getD ""
      description := rd.description.getD ""
      enabled := rd.enabled.getD true
      priority := rd.priority.getD (st.rules.length : ℤ)
      condition_type := rd.condition_type
      condition_value := rd.condition_value
      claim_type := rd.claim_type
      routing_team := rd.routing_team.getD "Fast Track"
      adjuster := rd.adjuster.getD "Standard Adjuster"
      operator := rd.operator
      threshold := rd.threshold
      fraud_category := rd.fraud_category
      severity_category := rd.severity_category
      complexity_category := rd.complexity_category
      created_at := now
      updated_at := now }
  let rules := st.rules ++ [rule]
  (rule, { rules := rules, savedRules := rules, rulesVersion := st.rulesVersion + 1 })

/-- The per-rule update loop body: every payload key except id and
created_at overwrites the field, then updated_at is set to now (a payload
updated_at is overwritten immediately). -/
def applyRuleUpdate (r : Rule) (ud : UpdateData) (now : Nat) : Rule :=
  { id := r.id
    name := ud.name.getD r.name
    description := ud.description.getD r.description
    enabled := ud.enabled.getD r.enabled
    priority := ud.priority.getD r.priority
    condition_type := ud.condition_type.getD r.condition_type
    condition_value := ud.condition_value.getD r.condition_value
    claim_type := ud.claim_type.getD r.claim_type
    routing_team := ud.routing_team.getD r.routing_team
    adjuster := ud.adjuster.getD r.adjuster
    operator := ud.operator.getD r.operator
    threshold := ud.threshold.getD r.threshold
    fraud_category := ud.fraud_category.getD r.fraud_category
    severity_category := ud.severity_category.getD r.severity_category
    complexity_category := ud.complexity_category.getD r.complexity_category
    created_at := r.created_at
    updated_at := now }

/-- The enumerate loop of update_rule: update the first rule whose id
matches and return it; later duplicates are untouched. -/
def updateRulesList (rid : String) (ud : UpdateData) (now : Nat) :
    List Rule → Option Rule × List Rule
  | [] => (none, [])
  | r :: rs =>
    if r.id = rid then (some (applyRuleUpdate r ud now), applyRuleUpdate r ud now :: rs)
    else
      let (res, rs2) := updateRulesList rid ud now rs
      (res, r :: rs2)

/-- update_rule: on a match, persist and notify the pipeline; on a miss,
return None with the state untouched. -/
def update_rule (rid : String) (ud : UpdateData) (now : Nat) (st : StoreState) :
    Option Rule × StoreState :=
  match updateRulesList rid ud now st.rules with
  | (some r, rules) =>
    (some r, { rules := rules, savedRules := rules, rulesVersion := st.rulesVersion + 1 })
  | (none, _) => (none, st)

/-- delete_rule: rebuild the list without the id (the global is reassigned
either way); only a shrink persists, notifies the pipeline and reports true. -/
def delete_rule (rid : String) (st : StoreState) : Bool × StoreState :=
  let filtered := st.rules.filter fun r => r.id ≠ rid
  if filtered.length < st.rules.length then
    (true, { rules := filtered, savedRules := filtered, rulesVersion := st.rulesVersion + 1 })
  else
    (false, { st with rules := filtered })

/-- Responses of the delete endpoint in routers/routing.py. -/
inductive HttpResponse where
  | ok (message : String)
  | httpError (status : Nat) (detail : String)
  deriving DecidableEq, Repr

/-- DELETE /routing/rules/rule_id: 404 when delete_rule reports false. -/
def delete_routing_rule (rid : String) (st : StoreState) : HttpResponse × StoreState :=
  let (deleted, st2) := delete_rule rid st
  if deleted then (HttpResponse.ok "Rule deleted successfully", st2)
  else (HttpResponse.httpError 404 "Rule not found", st2)

/-! ## Claim statements as definitions

The definitions below restate claims of the specification in terms of the
embedded code, to be proved, refuted or amended by the theorems that follow.
They follow the wording of the claims, not the source. -/

/-- C5 wording: the value an anchor keyword yields, namely the first
money-like token within 150 characters after its first occurrence, when
that token parses to a value greater than zero. -/
def anchorValue (text lowText key : List Char) : Option ℚ :=
  match strFind lowText key with
  | none => none
  | some idx =>
    match moneySearch ((text.drop idx).take 150) with
    | none => none
    | some cap =>
      match to_float_money cap with
      | some v => if 0 < v then some v else none
      | none => none

/-- C5 wording: the first keyword anchor, in the fixed keyword order, that
yields a positive value. -/
def firstAnchorValue (text : List Char) : Option ℚ :=
  (costKeywords.filterMap fun key => anchorValue text (lowerChars text) key).head?

/-- C5 as stated: with no positive anchor, the maximum over all money-like
tokens greater than 100 occurring anywhere in the text. -/
def costResultClaimed (text : List Char) : Option ℚ :=
  match firstAnchorValue text with
  | some v => some v
  | none => (((moneyFindAll text).filterMap to_float_money).filter
      fun v => decide (100 < v)).max?

/-- C5 as stated: the estimated_damage_cost field is set only for a
positive resulting cost. -/
def damageCostClaimed (text : List Char) : Option ℚ :=
  match costResultClaimed text with
  | some c => if 0 < c then some c else none
  | none => none

/-- C5 amended: the fallback maximum ranges over only the first ten
money-like tokens of the text. -/
def costResultAmended (text : List Char) : Option ℚ :=
  match firstAnchorValue text with
  | some v => some v
  | none => ((((moneyFindAll text).take 10).filterMap to_float_money).filter
      fun v => decide (100 < v)).max?

/-- C5 amended: the field gate on the amended cost result. -/
def damageCostAmended (text : List Char) : Option ℚ :=
  match costResultAmended text with
  | some c => if 0 < c then some c else none
  | none => none

/-- C2 wording: the values actually reported for a field across the
documents (absent documents and absent or empty fields report nothing). -/
def reportedValues (values : List (Option String)) : List String :=
  (values.filterMap id).filter fun v => v ≠ ""

/-- C2 wording for one match feature: 1.0 with fewer than two reported
values, 1.0 when two or more are reported and all agree, and 0.0 only when
two reported values differ. -/
def matchTriProp (values : List (Option String)) (result : ℚ) : Prop :=
  ((reportedValues values).length < 2 → result = 1) ∧
  (2 ≤ (reportedValues values).length →
    (∀ s ∈ reportedValues values, ∀ t ∈ reportedValues values, s = t) → result = 1) ∧
  (result = 0 → ∃ s ∈ reportedValues values, ∃ t ∈ reportedValues values, s ≠ t)

/-- The documents consulted for each match feature, in build_features order. -/
def locationValues (ac : DocFields) (pr lr : Option DocFields) : List (Option String) :=
  [ac.location, dget pr fun d => d.location, dget lr fun d => d.location]

def vehicleValues (ac : DocFields) (pr lr : Option DocFields) : List (Option String) :=
  [ac.vehicle_registration, dget pr fun d => d.vehicle_registration,
   dget lr fun d => d.vehicle_registration]

def rcValues (ac : DocFields) (pr lr rc : Option DocFields) : List (Option String) :=
  [ac.rc_no, dget pr (fun d => d.rc_no), dget lr (fun d => d.rc_no),
   dget rc fun d => d.rc_no]

def dlValues (ac : DocFields) (pr lr dl : Option DocFields) : List (Option String) :=
  [ac.dl_no, dget pr (fun d => d.dl_no), dget lr (fun d => d.dl_no),
   dget dl fun d => d.dl_no]

def patientValues (ac : DocFields) (hospital : Option DocFields) : List (Option String) :=
  [ac.patient_id, dget hospital fun d => d.patient_id]

def hospitalValues (ac : DocFields) (hospital : Option DocFields) : List (Option String) :=
  [ac.hospital_code, dget hospital fun d => d.hospital_code]

/-- C2 as stated: the tri-valued property holds for all six match features
alike. -/
def claimC2Prop (ac : DocFields) (pr lr rc dl hospital : Option DocFields) : Prop :=
  matchTriProp (locationValues ac pr lr)
    (build_features ac pr lr rc dl hospital).location_match ∧
  matchTriProp (vehicleValues ac pr lr)
    (build_features ac pr lr rc dl hospital).vehicle_match ∧
  matchTriProp (rcValues ac pr lr rc)
    (build_features ac pr lr rc dl hospital).rc_match ∧
  matchTriProp (dlValues ac pr lr dl)
    (build_features ac pr lr rc dl hospital).dl_match ∧
  matchTriProp (patientValues ac hospital)
    (build_features ac pr lr rc dl hospital).patient_match ∧
  matchTriProp (hospitalValues ac hospital)
    (build_features ac pr lr rc dl hospital).hospital_match

/-- C3 as stated: damage_difference and fraud_inconsistency_score always
land in the unit interval. -/
def claimC3Prop (ac : DocFields) (pr lr rc dl hospital : Option DocFields) : Prop :=
  0 ≤ (build_features ac pr lr rc dl hospital).damage_difference ∧
  (build_features ac pr lr rc dl hospital).damage_difference ≤ 1 ∧
  0 ≤ (build_features ac pr lr rc dl hospital).fraud_inconsistency_score ∧
  (build_features ac pr lr rc dl hospital).fraud_inconsistency_score ≤ 1

/-! Concrete inputs used by counterexamples and witnesses. -/

/-- C2 counterexample: only the acord document reports a location (and no
document reports a vehicle registration). -/
def acordOnlyLocation : DocFields :=
  { location := some "Delhi" }

/-- C3 counterexample: loss cost five times the acord cost. -/
def acordSmallCost : DocFields :=
  { estimated_damage_cost := some 1000 }

def lossLargeCost : DocFields :=
  { estimated_damage_cost := some 5000 }

/-- C4 scenario: acord cost 45000, loss cost 50000, injuries reported false
on both, identical locations and vehicle registrations, no dates. -/
def acordC4 : DocFields :=
  { estimated_damage_cost := some 45000
    location := some "MG Road Delhi"
    vehicle_registration := some "KA01AB1234"
    injuries_reported := some 0 }

def policeC4 : DocFields :=
  { location := some "MG Road Delhi" }

def lossC4 : DocFields :=
  { estimated_damage_cost := some 50000
    vehicle_registration := some "KA01AB1234"
    injuries_reported := some 0 }

/-- C5 counterexample text: eleven money tokens, no cost keyword, with the
largest token in eleventh position. -/
def textElevenTokens : List Char :=
  "101 101 101 101 101 101 101 101 101 101 102".toList

/-- C1 failing input: a fraud score of 0.7. -/
def mlHighFraud : MLScores :=
  { fraud_score := 7 / 10 }

/-- C10 witness document: a loss report with the total-loss flag set. -/
def lossTotalLoss : DocFields :=
  { total_loss_flag := some 1 }

/-! ## Helper lemmas -/

theorem roundHalfEven_mem (x : ℚ) :
    roundHalfEven x = ⌊x⌋ ∨ roundHalfEven x = ⌊x⌋ + 1 := by
  unfold roundHalfEven
  split_ifs <;> simp


theorem roundHalfEven_nonneg (x : ℚ) (hx : 0 ≤ x) : 0 ≤ roundHalfEven x := by
  have hf : 0 ≤ ⌊x⌋ := Int.floor_nonneg.mpr hx
  rcases roundHalfEven_mem x with h | h <;> omega

theorem roundHalfEven_le (x : ℚ) (n : ℤ) (hx : x ≤ (n : ℚ)) : roundHalfEven x ≤ n := by
  have hfl : ⌊x⌋ ≤ n := by
    have h := Int.floor_le_floor hx
    simpa using h
  have hup : ¬ x - (⌊x⌋ : ℚ) < 1 / 2 → ⌊x⌋ + 1 ≤ n := by
    intro hr
    rcases lt_or_eq_of_le hfl with h | h
    · omega
    · exfalso
      apply hr
      have hxn : x - (⌊x⌋ : ℚ) ≤ 0 := by
        rw [h]
        have : x ≤ (n : ℚ) := hx
        linarith
      linarith
  unfold roundHalfEven
  split_ifs with h1 h2 h3
  · exact hfl
  · exact hup h1
  · exact hfl
  · exact hup h1

theorem pyRound4_nonneg (x : ℚ) (hx : 0 ≤ x) : 0 ≤ pyRound4 x := by
  unfold pyRound4
  have h : (0 : ℚ) ≤ (roundHalfEven (x * 10000) : ℚ) := by
    exact_mod_cast roundHalfEven_nonneg _ (by linarith)
  positivity

theorem pyRound4_le_one (x : ℚ) (hx : x ≤ 1) : pyRound4 x ≤ 1 := by
  unfold pyRound4
  rw [div_le_one (by norm_num)]
  have h : roundHalfEven (x * 10000) ≤ (10000 : ℤ) := by
    apply roundHalfEven_le
    push_cast
    linarith
  exact_mod_cast h

theorem pyRound4_zero : pyRound4 0 = 0 := by
  norm_num [pyRound4, roundHalfEven]

theorem pyRound4_one : pyRound4 1 = 1 := by
  norm_num [pyRound4, roundHalfEven]

theorem token_overlap_nonneg (a b : Option String) : 0 ≤ token_overlap a b := by
  rcases a with _ | sa <;> rcases b with _ | sb
  · simp [token_overlap]
  · simp [token_overlap]
  · simp [token_overlap]
  · simp only [token_overlap]
    split_ifs <;> positivity

theorem token_overlap_le_one (a b : Option String) : token_overlap a b ≤ 1 := by
  rcases a with _ | sa <;> rcases b with _ | sb
  · simp [token_overlap]
  · simp [token_overlap]
  · simp [token_overlap]
  · simp only [token_overlap]
    split_ifs with h1 h2
    · norm_num
    · norm_num
    · rw [div_le_one]
      · exact_mod_cast Finset.card_le_card Finset.inter_subset_union
      · have hA : (tokenSet sa.toList).Nonempty := by
          rcases Finset.eq_empty_or_nonempty (tokenSet sa.toList) with h | h
          · exact absurd (Or.inl h) (by simpa using h2)
          · exact h
        have hU : (tokenSet sa.toList ∪ tokenSet sb.toList).Nonempty :=
          hA.mono Finset.subset_union_left
        exact_mod_cast Finset.card_pos.mpr hU

theorem observedVals_length (values : List (Option String)) :
    (observedVals values).length = (reportedValues values).length := by
  simp [observedVals, reportedValues]

theorem consistent_value_cases (values : List (Option String)) :
    consistent_value values = 0 ∨ consistent_value values = 1 := by
  unfold consistent_value
  split_ifs <;> simp

theorem consistent_value_short (values : List (Option String))
    (h : (reportedValues values).length < 2) : consistent_value values = 1 := by
  unfold consistent_value
  rw [if_pos]
  rw [observedVals_length]
  exact h

theorem consistent_value_agree (values : List (Option String))
    (h : ∀ s ∈ reportedValues values, ∀ t ∈ reportedValues values, s = t) :
    consistent_value values = 1 := by
  unfold consistent_value
  by_cases hlen : (observedVals values).length < 2
  · rw [if_pos hlen]
  · rw [if_neg hlen]
    have hlen2 : 2 ≤ (reportedValues values).length := by
      rw [← observedVals_length]
      exact Nat.le_of_not_lt hlen
    rcases hne : reportedValues values with _ | ⟨v0, vrest⟩
    · rw [hne] at hlen2; simp at hlen2
    have hv0 : v0 ∈ reportedValues values := by rw [hne]; exact List.mem_cons_self v0 vrest
    have heq : observedVals values =
        (reportedValues values).map fun v => (pyStrip v.toList).asString := rfl
    have hall : ∀ x ∈ observedVals values, x = (pyStrip v0.toList).asString := by
      intro x hx
      rw [heq] at hx
      rcases List.mem_map.mp hx with ⟨w, hw, hwx⟩
      rw [← hwx, h w hw v0 hv0]
    have hmem : (pyStrip v0.toList).asString ∈ observedVals values := by
      rw [heq]
      exact List.mem_map_of_mem _ hv0
    rw [if_pos]
    rw [Finset.card_eq_one]
    refine ⟨(pyStrip v0.toList).asString, ?_⟩
    ext x
    simp only [List.mem_toFinset, Finset.mem_singleton]
    constructor
    · intro hx; exact hall x hx
    · intro hx; rw [hx]; exact hmem

theorem matchTriProp_round_consistent (values : List (Option String)) :
    matchTriProp values (pyRound4 (consistent_value values)) := by
  refine ⟨?_, ?_, ?_⟩
  · intro h
    rw [consistent_value_short values h, pyRound4_one]
  · intro _ hall
    rw [consistent_value_agree values hall, pyRound4_one]
  · intro h0
    by_contra hno
    push_neg at hno
    rw [consistent_value_agree values hno, pyRound4_one] at h0
    norm_num at h0

/-! Bounds on the feature components. -/

theorem damageDiffOf_nonneg (a l : Option ℚ) : 0 ≤ damageDiffOf a l := by
  rcases a with _ | av <;> rcases l with _ | lv <;> unfold damageDiffOf <;> dsimp only
  · norm_num
  · norm_num
  · norm_num
  · split_ifs with h
    · have hpos : (0 : ℚ) < max av 1 := lt_of_lt_of_le zero_lt_one (le_max_right av 1)
      exact div_nonneg (abs_nonneg _) (le_of_lt hpos)
    · norm_num

theorem damageDiffOf_le_one (av lv : ℚ) (_hav : 0 ≤ av) (hlv : 0 ≤ lv)
    (h2 : lv ≤ 2 * av) : damageDiffOf (some av) (some lv) ≤ 1 := by
  unfold damageDiffOf
  dsimp only
  split_ifs with h
  · have hpos : (0 : ℚ) < max av 1 := lt_of_lt_of_le zero_lt_one (le_max_right av 1)
    rw [div_le_one hpos, abs_sub_le_iff]
    have hmax : av ≤ max av 1 := le_max_left av 1
    constructor <;> linarith
  · norm_num

theorem vehMatchOf_cases (ac : DocFields) (pr lr : Option DocFields) :
    vehMatchOf ac pr lr = 0 ∨ vehMatchOf ac pr lr = 1 := by
  unfold vehMatchOf
  split_ifs <;> simp

theorem injMismatchOf_cases (ac : DocFields) (pr lr : Option DocFields) :
    injMismatchOf ac pr lr = 0 ∨ injMismatchOf ac pr lr = 1 := by
  unfold injMismatchOf
  rcases ac.injuries_reported with _ | ai <;>
    rcases dget lr (fun d => d.injuries_reported) with _ | li <;>
    rcases dget pr (fun d => d.injuries_reported) with _ | pri <;>
    dsimp only <;> (try split_ifs) <;> simp

theorem dateDiffOf_nonneg (ac : DocFields) (pr lr : Option DocFields) :
    0 ≤ dateDiffOf ac pr lr := by
  unfold dateDiffOf
  rcases parse_date_any ac.incident_date with _ | a <;>
    rcases (parse_date_any (dget lr fun d => d.loss_date)) <|>
      (parse_date_any (dget pr fun d => d.incident_date)) with _ | b <;>
    dsimp only <;> norm_num

theorem locMatchOf_nonneg (ac : DocFields) (pr lr : Option DocFields) :
    0 ≤ locMatchOf ac pr lr :=
  le_trans (token_overlap_nonneg _ _) (le_max_left _ _)

theorem locMatchOf_le_one (ac : DocFields) (pr lr : Option DocFields) :
    locMatchOf ac pr lr ≤ 1 :=
  max_le (token_overlap_le_one _ _) (token_overlap_le_one _ _)

theorem inconsistencyOf_nonneg (ac : DocFields) (pr lr : Option DocFields) :
    0 ≤ inconsistencyOf ac pr lr := by
  unfold inconsistencyOf
  have h1 := damageDiffOf_nonneg ac.estimated_damage_cost (dget lr fun d => d.estimated_damage_cost)
  have h2 : (0 : ℚ) ≤ (injMismatchOf ac pr lr : ℚ) := by
    rcases injMismatchOf_cases ac pr lr with h | h <;> rw [h] <;> norm_num
  have h3 : (0 : ℚ) ≤ min ((dateDiffOf ac pr lr : ℚ) / 10) 1 := by
    apply le_min
    · have := dateDiffOf_nonneg ac pr lr
      positivity
    · norm_num
  have h4 : (0 : ℚ) ≤ 1 - locMatchOf ac pr lr := by
    have := locMatchOf_le_one ac pr lr
    linarith
  have h5 : (0 : ℚ) ≤ 1 - vehMatchOf ac pr lr := by
    rcases vehMatchOf_cases ac pr lr with h | h <;> rw [h] <;> norm_num
  have hsum : (0 : ℚ) ≤ damageDiffOf ac.estimated_damage_cost
      (dget lr fun d => d.estimated_damage_cost) + (injMismatchOf ac pr lr : ℚ) +
      min ((dateDiffOf ac pr lr : ℚ) / 10) 1 + (1 - locMatchOf ac pr lr) +
      (1 - vehMatchOf ac pr lr) := by linarith
  positivity

theorem inconsistencyOf_le_one (ac : DocFields) (pr lr : Option DocFields)
    (hdd : damageDiffOf ac.estimated_damage_cost
      (dget lr fun d => d.estimated_damage_cost) ≤ 1) :
    inconsistencyOf ac pr lr ≤ 1 := by
  unfold inconsistencyOf
  rw [div_le_one (by norm_num : (0 : ℚ) < 5)]
  have h2 : (injMismatchOf ac pr lr : ℚ) ≤ 1 := by
    rcases injMismatchOf_cases ac pr lr with h | h <;> rw [h] <;> norm_num
  have h3 : min ((dateDiffOf ac pr lr : ℚ) / 10) 1 ≤ 1 := min_le_right _ _
  have h4 : 1 - locMatchOf ac pr lr ≤ 1 := by
    have := locMatchOf_nonneg ac pr lr
    linarith
  have h5 : 1 - vehMatchOf ac pr lr ≤ 1 := by
    rcases vehMatchOf_cases ac pr lr with h | h <;> rw [h] <;> norm_num
  linarith

theorem complexityBase_mem (q : ℚ) :
    complexityBase q = 1 ∨ complexityBase q = 2 ∨ complexityBase q = 3 ∨
      complexityBase q = 4 := by
  unfold complexityBase
  split_ifs <;> norm_num

theorem complexityOf_mem (ac : DocFields) (pr lr : Option DocFields) :
    complexityOf ac pr lr = 1 ∨ complexityOf ac pr lr = 2 ∨ complexityOf ac pr lr = 3 ∨
      complexityOf ac pr lr = 4 := by
  unfold complexityOf
  split_ifs with h
  · have h4 : max (complexityBase (inconsistencyOf ac pr lr)) 4 = 4 := by
      rcases complexityBase_mem (inconsistencyOf ac pr lr) with hb | hb | hb | hb <;>
        rw [hb] <;> norm_num
    rw [h4]
    tauto
  · exact complexityBase_mem _

/-- Evaluation rule for pyRound4 when the scaled value rounds down. -/
theorem pyRound4_eq_of (x : ℚ) (n : ℤ) (hlo : (n : ℚ) ≤ x * 10000)
    (hhi : x * 10000 < (n : ℚ) + 1 / 2) : pyRound4 x = (n : ℚ) / 10000 := by
  have hf : ⌊x * 10000⌋ = n := by
    rw [Int.floor_eq_iff]
    refine ⟨hlo, ?_⟩
    linarith
  unfold pyRound4 roundHalfEven
  rw [hf]
  rw [if_pos (by linarith : x * 10000 - (n : ℚ) < 1 / 2)]

/-- Evaluation rule for damageDiffOf on two truthy costs. -/
theorem damageDiffOf_eq (av lv : ℚ) (hav : av ≠ 0) (hlv : lv ≠ 0) :
    damageDiffOf (some av) (some lv) = |av - lv| / max av 1 := by
  unfold damageDiffOf
  dsimp only
  rw [if_pos (by simp [hav, hlv])]

/-! Concrete evaluation of build_features on the C4 scenario documents. -/

theorem locMatchOf_C4 : locMatchOf acordC4 (some policeC4) (some lossC4) = 1 := by
  unfold locMatchOf
  have h2 : token_overlap acordC4.location (dget (some lossC4) fun d => d.location) = 0 := by
    simp [acordC4, lossC4, dget, token_overlap]
  have h1 : token_overlap acordC4.location (dget (some policeC4) fun d => d.location) = 1 := by
    have e1 : acordC4.location = some "MG Road Delhi" := rfl
    have e2 : dget (some policeC4) (fun d => d.location) = some "MG Road Delhi" := rfl
    rw [e1, e2]
    unfold token_overlap
    dsimp only
    rw [if_neg (by decide), if_neg (by decide)]
    have hc1 : (tokenSet "MG Road Delhi".toList ∩ tokenSet "MG Road Delhi".toList).card
        = 3 := by decide
    have hc2 : (tokenSet "MG Road Delhi".toList ∪ tokenSet "MG Road Delhi".toList).card
        = 3 := by decide
    rw [hc1, hc2]
    norm_num
  rw [h1, h2]
  norm_num

theorem damageDiffOf_C4 : damageDiffOf acordC4.estimated_damage_cost
    (dget (some lossC4) fun d => d.estimated_damage_cost) = 1 / 9 := by
  have e1 : acordC4.estimated_damage_cost = some 45000 := rfl
  have e2 : dget (some lossC4) (fun d => d.estimated_damage_cost) = some 50000 := rfl
  rw [e1, e2, damageDiffOf_eq 45000 50000 (by norm_num) (by norm_num)]
  rw [max_eq_left (by norm_num : (1 : ℚ) ≤ 45000)]
  rw [show |(45000 : ℚ) - 50000| = 5000 by
    rw [show (45000 : ℚ) - 50000 = -5000 by norm_num, abs_neg]
    exact abs_of_nonneg (by norm_num)]
  norm_num

theorem inconsistencyOf_C4 :
    inconsistencyOf acordC4 (some policeC4) (some lossC4) = 1 / 45 := by
  unfold inconsistencyOf
  rw [damageDiffOf_C4, locMatchOf_C4]
  have hinj : injMismatchOf acordC4 (some policeC4) (some lossC4) = 0 := by decide
  have hdate : dateDiffOf acordC4 (some policeC4) (some lossC4) = 0 := by decide
  have hveh : vehMatchOf acordC4 (some policeC4) (some lossC4) = 1 := by
    unfold vehMatchOf
    rw [if_pos (by decide)]
  rw [hinj, hdate, hveh]
  norm_num

theorem buildFeatures_C4_damage :
    (build_features acordC4 (some policeC4) (some lossC4) none none none).damage_difference
      = 1111 / 10000 := by
  have hproj : (build_features acordC4 (some policeC4) (some lossC4)
      none none none).damage_difference
      = pyRound4 (damageDiffOf acordC4.estimated_damage_cost
          (dget (some lossC4) fun d => d.estimated_damage_cost)) := rfl
  rw [hproj, damageDiffOf_C4]
  have h := pyRound4_eq_of (1 / 9) 1111 (by norm_num) (by norm_num)
  rw [h]
  norm_num

theorem buildFeatures_C4_fis :
    (build_features acordC4 (some policeC4) (some lossC4)
      none none none).fraud_inconsistency_score = 111 / 5000 := by
  have hproj : (build_features acordC4 (some policeC4) (some lossC4)
      none none none).fraud_inconsistency_score
      = pyRound4 (inconsistencyOf acordC4 (some policeC4) (some lossC4)) := rfl
  rw [hproj, inconsistencyOf_C4]
  have h := pyRound4_eq_of (1 / 45) 222 (by norm_num) (by norm_num)
  rw [h]
  norm_num

/-! ## Claim theorems -/

/-- C1: for every routing input with fraud_score at least 0.6 the claim says
apply_routing_rules returns the SIU (Fraud) / SIU Investigator decision;
the code assigns that team and adjuster but then raises AttributeError while
formatting the reason (float has no toFixed method), so the function never
returns on this branch and the spec records the intended behaviour. -/
theorem apply_routing_rules_high_fraud_raises (ml : MLScores) (cd : Option ClaimData)
    (h : ml.fraud_score ≥ 3 / 5) :
    apply_routing_rules ml cd = Except.error toFixedErr := by
  unfold apply_routing_rules
  dsimp only
  rw [if_pos h]

/-- C1 witness: the failing input fraud_score = 0.7. -/
theorem apply_routing_rules_high_fraud_raises_witness :
    apply_routing_rules mlHighFraud none = Except.error toFixedErr :=
  apply_routing_rules_high_fraud_raises mlHighFraud none (by norm_num [mlHighFraud])

/-- C2 counterexample: with only the acord document reporting a location
(one reported value, hence fewer than two), the claimed neutral default
would make location_match 1.0, but build_features yields 0.0. -/
theorem claimC2_counterexample :
    ¬ claimC2Prop acordOnlyLocation none none none none none := by
  intro h
  have hlen : (reportedValues (locationValues acordOnlyLocation none none)).length < 2 := by
    decide
  have heq := h.1.1 hlen
  have hz : locMatchOf acordOnlyLocation none none = 0 := by
    unfold locMatchOf
    simp [dget, token_overlap]
  have hloc : (build_features acordOnlyLocation none none none none none).location_match
      = 0 := by
    have hproj : (build_features acordOnlyLocation none none none none none).location_match
        = pyRound4 (locMatchOf acordOnlyLocation none none) := rfl
    rw [hproj, hz, pyRound4_zero]
  rw [hloc] at heq
  norm_num at heq

/-- C2 (amended): the consistent_value-backed features rc_match, dl_match,
patient_match and hospital_match satisfy the tri-valued neutral-default
property; location_match and vehicle_match do not follow it and are 0.0
whenever the acord document lacks the corresponding field. -/
theorem match_tri_property_amended (ac : DocFields) (pr lr rc dl hospital : Option DocFields) :
    matchTriProp (rcValues ac pr lr rc)
      (build_features ac pr lr rc dl hospital).rc_match ∧
    matchTriProp (dlValues ac pr lr dl)
      (build_features ac pr lr rc dl hospital).dl_match ∧
    matchTriProp (patientValues ac hospital)
      (build_features ac pr lr rc dl hospital).patient_match ∧
    matchTriProp (hospitalValues ac hospital)
      (build_features ac pr lr rc dl hospital).hospital_match ∧
    ((ac.location = none ∨ ac.location = some "") →
      (build_features ac pr lr rc dl hospital).location_match = 0) ∧
    ((ac.vehicle_registration = none ∨ ac.vehicle_registration = some "") →
      (build_features ac pr lr rc dl hospital).vehicle_match = 0) := by
  refine ⟨matchTriProp_round_consistent _, matchTriProp_round_consistent _,
    matchTriProp_round_consistent _, matchTriProp_round_consistent _, ?_, ?_⟩
  · intro h
    have hz : locMatchOf ac pr lr = 0 := by
      unfold locMatchOf
      rcases h with h | h <;> rw [h] <;>
        cases dget pr (fun d => d.location) <;> cases dget lr (fun d => d.location) <;>
        simp [token_overlap]
    have hproj : (build_features ac pr lr rc dl hospital).location_match
        = pyRound4 (locMatchOf ac pr lr) := rfl
    rw [hproj, hz, pyRound4_zero]
  · intro h
    have hz : vehMatchOf ac pr lr = 0 := by
      unfold vehMatchOf
      rcases h with h | h <;> rw [h] <;> simp
    have hproj : (build_features ac pr lr rc dl hospital).vehicle_match
        = pyRound4 (vehMatchOf ac pr lr) := rfl
    rw [hproj, hz, pyRound4_zero]

/-- C2 witness: the amended theorem applied to the counterexample documents,
discharging the fewer-than-two hypothesis for rc_match. -/
theorem match_tri_property_amended_witness :
    (build_features acordOnlyLocation none none none none none).rc_match = 1 :=
  (match_tri_property_amended acordOnlyLocation none none none none none).1.1 (by decide)

/-- C10: complexity_score is always one of 1.0, 2.0, 3.0, 4.0, and the
routing categorisation marks it high exactly when it is 4. -/
theorem complexity_in_range_high_iff_four (ac : DocFields)
    (pr lr rc dl hospital : Option DocFields) :
    ((build_features ac pr lr rc dl hospital).complexity_score = 1 ∨
     (build_features ac pr lr rc dl hospital).complexity_score = 2 ∨
     (build_features ac pr lr rc dl hospital).complexity_score = 3 ∨
     (build_features ac pr lr rc dl hospital).complexity_score = 4) ∧
    (get_complexity_category (build_features ac pr lr rc dl hospital).complexity_score
        = "high" ↔
      (build_features ac pr lr rc dl hospital).complexity_score = 4) := by
  have hproj : (build_features ac pr lr rc dl hospital).complexity_score
      = (complexityOf ac pr lr : ℚ) := rfl
  rw [hproj]
  have hmem := complexityOf_mem ac pr lr
  constructor
  · rcases hmem with h | h | h | h <;> rw [h] <;> norm_num
  · rcases hmem with h | h | h | h <;> rw [h] <;>
      norm_num [get_complexity_category] <;> decide

/-- C3 counterexample: with acord cost 1000 and loss cost 5000,
damage_difference is 4.0 and fraud_inconsistency_score is 1.2, so neither
lies in the unit interval. -/
theorem claimC3_counterexample :
    ¬ claimC3Prop acordSmallCost none (some lossLargeCost) none none none := by
  intro h
  have hdd : damageDiffOf acordSmallCost.estimated_damage_cost
      (dget (some lossLargeCost) fun d => d.estimated_damage_cost) = 4 := by
    have e1 : acordSmallCost.estimated_damage_cost = some 1000 := rfl
    have e2 : dget (some lossLargeCost) (fun d => d.estimated_damage_cost)
        = some 5000 := rfl
    rw [e1, e2, damageDiffOf_eq 1000 5000 (by norm_num) (by norm_num)]
    rw [max_eq_left (by norm_num : (1 : ℚ) ≤ 1000)]
    rw [show |(1000 : ℚ) - 5000| = 4000 by
      rw [show (1000 : ℚ) - 5000 = -4000 by norm_num, abs_neg]
      exact abs_of_nonneg (by norm_num)]
    norm_num
  have hproj : (build_features acordSmallCost none (some lossLargeCost)
      none none none).damage_difference
      = pyRound4 (damageDiffOf acordSmallCost.estimated_damage_cost
          (dget (some lossLargeCost) fun d => d.estimated_damage_cost)) := rfl
  have h4 : (build_features acordSmallCost none (some lossLargeCost)
      none none none).damage_difference = 4 := by
    rw [hproj, hdd]
    have he := pyRound4_eq_of 4 40000 (by norm_num) (by norm_num)
    rw [he]
    norm_num
  have hle := h.2.1
  rw [h4] at hle
  norm_num at hle

/-- C3 (amended): both scores are always non-negative, and both stay in the
unit interval provided the loss cost is at most twice the acord cost (the
code divides their gap by the acord cost, so a loss cost beyond that bound
pushes damage_difference above one). -/
theorem damage_inconsistency_bounds_amended (ac : DocFields)
    (pr lr rc dl hospital : Option DocFields) :
    0 ≤ (build_features ac pr lr rc dl hospital).damage_difference ∧
    0 ≤ (build_features ac pr lr rc dl hospital).fraud_inconsistency_score ∧
    ((∀ av lv, ac.estimated_damage_cost = some av →
        (dget lr fun d => d.estimated_damage_cost) = some lv →
        0 ≤ av ∧ 0 ≤ lv ∧ lv ≤ 2 * av) →
      (build_features ac pr lr rc dl hospital).damage_difference ≤ 1 ∧
      (build_features ac pr lr rc dl hospital).fraud_inconsistency_score ≤ 1) := by
  have hproj1 : (build_features ac pr lr rc dl hospital).damage_difference
      = pyRound4 (damageDiffOf ac.estimated_damage_cost
          (dget lr fun d => d.estimated_damage_cost)) := rfl
  have hproj2 : (build_features ac pr lr rc dl hospital).fraud_inconsistency_score
      = pyRound4 (inconsistencyOf ac pr lr) := rfl
  refine ⟨?_, ?_, ?_⟩
  · rw [hproj1]
    exact pyRound4_nonneg _ (damageDiffOf_nonneg _ _)
  · rw [hproj2]
    exact pyRound4_nonneg _ (inconsistencyOf_nonneg _ _ _)
  · intro hc
    have hdd1 : damageDiffOf ac.estimated_damage_cost
        (dget lr fun d => d.estimated_damage_cost) ≤ 1 := by
      rcases hac : ac.estimated_damage_cost with _ | av
      · unfold damageDiffOf
        dsimp only
        norm_num
      · rcases hlc : dget lr (fun d => d.estimated_damage_cost) with _ | lv
        · unfold damageDiffOf
          dsimp only
          norm_num
        · obtain ⟨h1, h2, h3⟩ := hc av lv hac hlc
          exact damageDiffOf_le_one av lv h1 h2 h3
    constructor
    · rw [hproj1]
      exact pyRound4_le_one _ hdd1
    · rw [hproj2]
      exact pyRound4_le_one _ (inconsistencyOf_le_one _ _ _ hdd1)

/-- C3 witness: the bounds theorem applied to the 45000 and 50000 cost
documents, whose costs satisfy the amended side condition. -/
theorem damage_inconsistency_bounds_amended_witness :
    (build_features acordC4 (some policeC4) (some lossC4)
      none none none).damage_difference ≤ 1 ∧
    (build_features acordC4 (some policeC4) (some lossC4)
      none none none).fraud_inconsistency_score ≤ 1 :=
  (damage_inconsistency_bounds_amended acordC4 (some policeC4) (some lossC4)
    none none none).2.2 (by
      intro av lv h1 h2
      have hav : av = 45000 := by
        have e1 : acordC4.estimated_damage_cost = some 45000 := rfl
        rw [e1] at h1
        exact (Option.some_inj.mp h1).symm
      have hlv : lv = 50000 := by
        have e2 : dget (some lossC4) (fun d => d.estimated_damage_cost) = some 50000 := rfl
        rw [e2] at h2
        exact (Option.some_inj.mp h2).symm
      subst hav
      subst hlv
      norm_num)

/-- C4 counterexample: on the 45000 and 50000 scenario the code divides by
the acord cost, so damage_difference is 0.1111 and
fraud_inconsistency_score is 0.0222, not the claimed 0.1 and 0.02. -/
theorem claimC4_counterexample :
    ¬ ((build_features acordC4 (some policeC4) (some lossC4)
          none none none).damage_difference = 1 / 10 ∧
       (build_features acordC4 (some policeC4) (some lossC4)
          none none none).injury_mismatch = 0 ∧
       (build_features acordC4 (some policeC4) (some lossC4)
          none none none).fraud_inconsistency_score = 1 / 50) := by
  intro h
  have hdd := h.1
  rw [buildFeatures_C4_damage] at hdd
  norm_num at hdd

/-- C4 (amended): the scenario yields damage_difference
round(5000 / 45000, 4) = 0.1111, injury_mismatch 0, and
fraud_inconsistency_score round(1 / 45, 4) = 0.0222. -/
theorem claimC4_amended :
    (build_features acordC4 (some policeC4) (some lossC4)
        none none none).damage_difference = 1111 / 10000 ∧
    (build_features acordC4 (some policeC4) (some lossC4)
        none none none).injury_mismatch = 0 ∧
    (build_features acordC4 (some policeC4) (some lossC4)
        none none none).fraud_inconsistency_score = 111 / 5000 :=
  ⟨buildFeatures_C4_damage, by decide, buildFeatures_C4_fis⟩

/-! Rule store lemmas. -/

theorem filter_length_lt_of_mem {α : Type} (p : α → Bool) (l : List α) (r : α)
    (hr : r ∈ l) (hp : ¬ p r) : (l.filter p).length < l.length := by
  rcases lt_or_eq_of_le (l.length_filter_le p) with h | h
  · exact h
  · exfalso
    have heq : l.filter p = l := (List.filter_sublist l).eq_of_length h
    rw [← heq] at hr
    exact hp (List.of_mem_filter hr)

theorem updateRulesList_found (rid : String) (ud : UpdateData) (now : Nat) :
    ∀ rules : List Rule, (∃ r ∈ rules, r.id = rid) →
      ∃ u rs, updateRulesList rid ud now rules = (some u, rs) := by
  intro rules
  induction rules with
  | nil => rintro ⟨r, hr, _⟩; cases hr
  | cons x xs ih =>
    rintro ⟨r, hr, hid⟩
    unfold updateRulesList
    by_cases hx : x.id = rid
    · rw [if_pos hx]
      exact ⟨_, _, rfl⟩
    · rw [if_neg hx]
      have hmem : ∃ r ∈ xs, r.id = rid := by
        rcases List.mem_cons.mp hr with h | h
        · exact absurd (h ▸ hid) hx
        · exact ⟨r, h, hid⟩
      obtain ⟨u, rs, heq⟩ := ih hmem
      rw [heq]
      exact ⟨u, x :: rs, rfl⟩

theorem updateRulesList_append (rid : String) (ud : UpdateData) (now : Nat)
    (pre : List Rule) (r : Rule) (post : List Rule) (hr : r.id = rid)
    (hpre : ∀ x ∈ pre, x.id ≠ rid) :
    updateRulesList rid ud now (pre ++ r :: post) =
      (some (applyRuleUpdate r ud now), pre ++ applyRuleUpdate r ud now :: post) := by
  induction pre with
  | nil =>
    rw [List.nil_append]
    unfold updateRulesList
    dsimp only
    rw [if_pos hr]
    simp
  | cons x xs ih =>
    have hx : x.id ≠ rid := hpre x (List.mem_cons_self x xs)
    have hxs : ∀ y ∈ xs, y.id ≠ rid := fun y hy => hpre y (List.mem_cons_of_mem x hy)
    rw [List.cons_append]
    unfold updateRulesList
    dsimp only
    rw [if_neg hx, ih hxs]
    simp

/-- C6: every mutation of the rule store (create, update of an existing id,
delete of an existing id) increments rules_version by one and persists the
full ordered rule list (the saved copy equals the in-memory list). -/
theorem mutations_bump_version_and_persist :
    (∀ rd newId now st,
      (create_rule rd newId now st).2.rulesVersion = st.rulesVersion + 1 ∧
      (create_rule rd newId now st).2.savedRules = (create_rule rd newId now st).2.rules ∧
      (create_rule rd newId now st).2.rules = st.rules ++ [(create_rule rd newId now st).1]) ∧
    (∀ rid ud now st, (∃ r ∈ st.rules, r.id = rid) →
      (update_rule rid ud now st).2.rulesVersion = st.rulesVersion + 1 ∧
      (update_rule rid ud now st).2.savedRules = (update_rule rid ud now st).2.rules) ∧
    (∀ rid st, (∃ r ∈ st.rules, r.id = rid) →
      (delete_rule rid st).2.rulesVersion = st.rulesVersion + 1 ∧
      (delete_rule rid st).2.savedRules = (delete_rule rid st).2.rules) := by
  refine ⟨fun rd newId now st => ⟨rfl, rfl, rfl⟩, ?_, ?_⟩
  · intro rid ud now st hex
    obtain ⟨u, rs, heq⟩ := updateRulesList_found rid ud now st.rules hex
    unfold update_rule
    rw [heq]
    exact ⟨rfl, rfl⟩
  · intro rid st hex
    obtain ⟨r, hr, hid⟩ := hex
    have hlt : (st.rules.filter fun r => r.id ≠ rid).length < st.rules.length := by
      apply filter_length_lt_of_mem _ _ r hr
      simp [hid]
    unfold delete_rule
    rw [if_pos hlt]
    exact ⟨rfl, rfl⟩

/-- C6 witness: updating and deleting the only rule of a store at version 5
both move it to version 6. -/
theorem mutations_bump_version_and_persist_witness :
    (update_rule "r1" {} 7 ⟨[{ id := "r1" }], [{ id := "r1" }], 5⟩).2.rulesVersion
      = 5 + 1 ∧
    (delete_rule "r1" ⟨[{ id := "r1" }], [{ id := "r1" }], 5⟩).2.rulesVersion = 5 + 1 :=
  ⟨(mutations_bump_version_and_persist.2.1 "r1" {} 7
      ⟨[{ id := "r1" }], [{ id := "r1" }], 5⟩ ⟨{ id := "r1" }, by simp, rfl⟩).1,
   (mutations_bump_version_and_persist.2.2 "r1"
      ⟨[{ id := "r1" }], [{ id := "r1" }], 5⟩ ⟨{ id := "r1" }, by simp, rfl⟩).1⟩

/-- C7: update_rule rewrites exactly the payload fields (id and created_at
are skipped, updated_at is set to now) on the first rule whose id matches,
leaving every other rule in place; create_rule stores every submitted field
as given, stamps created_at, and defaults priority to the rule count. -/
theorem update_frame_create_roundtrip :
    (∀ r ud now,
      (applyRuleUpdate r ud now).id = r.id ∧
      (applyRuleUpdate r ud now).created_at = r.created_at ∧
      (applyRuleUpdate r ud now).updated_at = now ∧
      (∀ v, ud.name = some v → (applyRuleUpdate r ud now).name = v) ∧
      (ud.name = none → (applyRuleUpdate r ud now).name = r.name) ∧
      (∀ v, ud.description = some v → (applyRuleUpdate r ud now).description = v) ∧
      (ud.description = none → (applyRuleUpdate r ud now).description = r.description) ∧
      (∀ v, ud.enabled = some v → (applyRuleUpdate r ud now).enabled = v) ∧
      (ud.enabled = none → (applyRuleUpdate r ud now).enabled = r.enabled) ∧
      (∀ v, ud.priority = some v → (applyRuleUpdate r ud now).priority = v) ∧
      (ud.priority = none → (applyRuleUpdate r ud now).priority = r.priority) ∧
      (∀ v, ud.condition_type = some v → (applyRuleUpdate r ud now).condition_type = v) ∧
      (ud.condition_type = none → (applyRuleUpdate r ud now).condition_type = r.condition_type) ∧
      (∀ v, ud.condition_value = some v → (applyRuleUpdate r ud now).condition_value = v) ∧
      (ud.condition_value = none → (applyRuleUpdate r ud now).condition_value = r.condition_value) ∧
      (∀ v, ud.claim_type = some v → (applyRuleUpdate r ud now).claim_type = v) ∧
      (ud.claim_type = none → (applyRuleUpdate r ud now).claim_type = r.claim_type) ∧
      (∀ v, ud.routing_team = some v → (applyRuleUpdate r ud now).routing_team = v) ∧
      (ud.routing_team = none → (applyRuleUpdate r ud now).routing_team = r.routing_team) ∧
      (∀ v, ud.adjuster = some v → (applyRuleUpdate r ud now).adjuster = v) ∧
      (ud.adjuster = none → (applyRuleUpdate r ud now).adjuster = r.adjuster) ∧
      (∀ v, ud.operator = some v → (applyRuleUpdate r ud now).operator = v) ∧
      (ud.operator = none → (applyRuleUpdate r ud now).operator = r.operator) ∧
      (∀ v, ud.threshold = some v → (applyRuleUpdate r ud now).threshold = v) ∧
      (ud.threshold = none → (applyRuleUpdate r ud now).threshold = r.threshold) ∧
      (∀ v, ud.fraud_category = some v → (applyRuleUpdate r ud now).fraud_category = v) ∧
      (ud.fraud_category = none → (applyRuleUpdate r ud now).fraud_category = r.fraud_category) ∧
      (∀ v, ud.severity_category = some v → (applyRuleUpdate r ud now).severity_category = v) ∧
      (ud.severity_category = none → (applyRuleUpdate r ud now).severity_category = r.severity_category) ∧
      (∀ v, ud.complexity_category = some v → (applyRuleUpdate r ud now).complexity_category = v) ∧
      (ud.complexity_category = none → (applyRuleUpdate r ud now).complexity_category = r.complexity_category)) ∧
    (∀ pre r post ud now rid sv ver, r.id = rid → (∀ x ∈ pre, x.id ≠ rid) →
      update_rule rid ud now ⟨pre ++ r :: post, sv, ver⟩ =
        (some (applyRuleUpdate r ud now),
         ⟨pre ++ applyRuleUpdate r ud now :: post,
          pre ++ applyRuleUpdate r ud now :: post, ver + 1⟩)) ∧
    (∀ rd newId (now : Nat) (st : StoreState),
      (∀ v, rd.name = some v → (create_rule rd newId now st).1.name = v) ∧
      (∀ v, rd.description = some v → (create_rule rd newId now st).1.description = v) ∧
      (∀ v, rd.enabled = some v → (create_rule rd newId now st).1.enabled = v) ∧
      (∀ v, rd.priority = some v → (create_rule rd newId now st).1.priority = v) ∧
      (create_rule rd newId now st).1.condition_type = rd.condition_type ∧
      (create_rule rd newId now st).1.condition_value = rd.condition_value ∧
      (create_rule rd newId now st).1.claim_type = rd.claim_type ∧
      (∀ v, rd.routing_team = some v → (create_rule rd newId now st).1.routing_team = v) ∧
      (∀ v, rd.adjuster = some v → (create_rule rd newId now st).1.adjuster = v) ∧
      (create_rule rd newId now st).1.operator = rd.operator ∧
      (create_rule rd newId now st).1.threshold = rd.threshold ∧
      (create_rule rd newId now st).1.fraud_category = rd.fraud_category ∧
      (create_rule rd newId now st).1.severity_category = rd.severity_category ∧
      (create_rule rd newId now st).1.complexity_category = rd.complexity_category ∧
      (create_rule rd newId now st).1.id = newId ∧
      (create_rule rd newId now st).1.created_at = now ∧
      (create_rule rd newId now st).1.updated_at = now ∧
      (rd.priority = none → (create_rule rd newId now st).1.priority = st.rules.length) ∧
      (∀ p, rd.priority = some p → (create_rule rd newId now st).1.priority = p)) := by
  refine ⟨?_, ?_, ?_⟩
  · intro r ud now
    exact ⟨rfl, rfl, rfl,
      fun v hv => by simp [applyRuleUpdate, hv],
      fun hn => by simp [applyRuleUpdate, hn],
      fun v hv => by simp [applyRuleUpdate, hv],
      fun hn => by simp [applyRuleUpdate, hn],
      fun v hv => by simp [applyRuleUpdate, hv],
      fun hn => by simp [applyRuleUpdate, hn],
      fun v hv => by simp [applyRuleUpdate, hv],
      fun hn => by simp [applyRuleUpdate, hn],
      fun v hv => by simp [applyRuleUpdate, hv],
      fun hn => by simp [applyRuleUpdate, hn],
      fun v hv => by simp [applyRuleUpdate, hv],
      fun hn => by simp [applyRuleUpdate, hn],
      fun v hv => by simp [applyRuleUpdate, hv],
      fun hn => by simp [applyRuleUpdate, hn],
      fun v hv => by simp [applyRuleUpdate, hv],
      fun hn => by simp [applyRuleUpdate, hn],
      fun v hv => by simp [applyRuleUpdate, hv],
      fun hn => by simp [applyRuleUpdate, hn],
      fun v hv => by simp [applyRuleUpdate, hv],
      fun hn => by simp [applyRuleUpdate, hn],
      fun v hv => by simp [applyRuleUpdate, hv],
      fun hn => by simp [applyRuleUpdate, hn],
      fun v hv => by simp [applyRuleUpdate, hv],
      fun hn => by simp [applyRuleUpdate, hn],
      fun v hv => by simp [applyRuleUpdate, hv],
      fun hn => by simp [applyRuleUpdate, hn],
      fun v hv => by simp [applyRuleUpdate, hv],
      fun hn => by simp [applyRuleUpdate, hn]⟩
  · intro pre r post ud now rid sv ver hr hpre
    unfold update_rule
    rw [updateRulesList_append rid ud now pre r post hr hpre]
  · intro rd newId now st
    refine ⟨
      fun v hv => by simp [create_rule, hv],
      fun v hv => by simp [create_rule, hv],
      fun v hv => by simp [create_rule, hv],
      fun v hv => by simp [create_rule, hv],
      rfl,
      rfl,
      rfl,
      fun v hv => by simp [create_rule, hv],
      fun v hv => by simp [create_rule, hv],
      rfl,
      rfl,
      rfl,
      rfl,
      rfl,
      rfl, rfl, rfl,
      fun hn => by simp [create_rule, hn],
      fun p hp => by simp [create_rule, hp]⟩

/-- C7 witness: a name-only update of the sole stored rule rewrites the name
and returns the updated rule. -/
theorem update_frame_create_roundtrip_witness :
    (update_rule "r1" { name := some "renamed" } 9
        ⟨[{ id := "r1" }], [{ id := "r1" }], 3⟩).1
      = some (applyRuleUpdate { id := "r1" } { name := some "renamed" } 9) ∧
    (applyRuleUpdate { id := "r1" } { name := some "renamed" } 9).name = "renamed" ∧
    (create_rule { name := some "n" } "fresh" 4
        ⟨[{ id := "r1" }], [{ id := "r1" }], 3⟩).1.name = "n" := by
  obtain ⟨h1, h2, h3⟩ := update_frame_create_roundtrip
  refine ⟨?_, ?_, ?_⟩
  · exact congrArg Prod.fst (h2 [] { id := "r1" } [] { name := some "renamed" } 9 "r1"
      [{ id := "r1" }] 3 rfl (by simp))
  · exact (h1 { id := "r1" } { name := some "renamed" } 9).2.2.2.1 "renamed" rfl
  · exact (h3 { name := some "n" } "fresh" 4
      ⟨[{ id := "r1" }], [{ id := "r1" }], 3⟩).1 "n" rfl

/-- C8: deleting an id that is not in the store reports false, the endpoint
answers 404, and the store (in particular the rule list and its length) is
unchanged. -/
theorem delete_missing_rule_404 (rid : String) (st : StoreState)
    (h : ∀ r ∈ st.rules, r.id ≠ rid) :
    delete_rule rid st = (false, st) ∧
    delete_routing_rule rid st = (HttpResponse.httpError 404 "Rule not found", st) := by
  have hf : (st.rules.filter fun r => r.id ≠ rid) = st.rules := by
    rw [List.filter_eq_self]
    intro a ha
    simpa using h a ha
  have hd : delete_rule rid st = (false, st) := by
    unfold delete_rule
    rw [hf, if_neg (lt_irrefl _)]
  refine ⟨hd, ?_⟩
  unfold delete_routing_rule
  rw [hd]
  simp

/-- C8 witness: deleting the absent id zzz from a one-rule store. -/
theorem delete_missing_rule_404_witness :
    delete_routing_rule "zzz" ⟨[{ id := "r1" }], [{ id := "r1" }], 5⟩
      = (HttpResponse.httpError 404 "Rule not found",
         ⟨[{ id := "r1" }], [{ id := "r1" }], 5⟩) :=
  (delete_missing_rule_404 "zzz" ⟨[{ id := "r1" }], [{ id := "r1" }], 5⟩
    (by simp)).2

/-! Cost-extraction lemmas for C5. -/

theorem pyFloatParse_nonneg (s : List Char) (v : ℚ) (h : pyFloatParse s = some v) :
    0 ≤ v := by
  unfold pyFloatParse at h
  split_ifs at h with hall
  · rcases hsp : s.splitOn '.' with _ | ⟨a, _ | ⟨b, _ | _⟩⟩ <;> rw [hsp] at h <;>
      dsimp only at h
    · exact Option.noConfusion h
    · split_ifs at h with hcond
      have hv : v = (digitsToNat a : ℚ) := (Option.some_inj.mp h).symm
      rw [hv]
      positivity
    · split_ifs at h with hcond
      have hv : v = (digitsToNat a : ℚ) + (digitsToNat b : ℚ) / (10 : ℚ) ^ b.length :=
        (Option.some_inj.mp h).symm
      rw [hv]
      positivity
    · exact Option.noConfusion h

theorem to_float_money_nonneg (s : List Char) (v : ℚ) (h : to_float_money s = some v) :
    0 ≤ v := by
  unfold to_float_money at h
  split_ifs at h with hs
  exact pyFloatParse_nonneg _ _ h

theorem anchorValue_pos (text lowText key : List Char) (v : ℚ)
    (h : anchorValue text lowText key = some v) : 0 < v := by
  unfold anchorValue at h
  rcases hf : strFind lowText key with _ | idx <;> rw [hf] at h <;> dsimp only at h
  · exact absurd h (by simp)
  · rcases hm : moneySearch ((text.drop idx).take 150) with _ | cap <;> rw [hm] at h <;>
      dsimp only at h
    · exact absurd h (by simp)
    · rcases hp : to_float_money cap with _ | w <;> rw [hp] at h <;> dsimp only at h
      · exact absurd h (by simp)
      · split_ifs at h with hw
        exact (Option.some_inj.mp h) ▸ hw

theorem costFallback_pos (text : List Char) (v : ℚ) (hv : 0 < v) :
    costFallback text (some v) = some v := by
  unfold costFallback
  rw [if_neg]
  simp [Option.some_inj, ne_of_gt hv]

/-- The keyword loop ends with the first positive anchor value when one
exists; otherwise its accumulator stays None or zero. -/
theorem keywordCostScan_spec (text lowText : List Char) :
    ∀ (ks : List (List Char)) (acc : Option ℚ), (acc = none ∨ acc = some 0) →
      (∃ v, (ks.filterMap fun k => anchorValue text lowText k).head? = some v ∧
        keywordCostScan text lowText ks acc = some v) ∨
      ((ks.filterMap fun k => anchorValue text lowText k).head? = none ∧
        (keywordCostScan text lowText ks acc = none ∨
         keywordCostScan text lowText ks acc = some 0)) := by
  intro ks
  induction ks with
  | nil =>
    intro acc hz
    right
    exact ⟨rfl, hz⟩
  | cons k ks ih =>
    intro acc hz
    rcases hf : strFind lowText k with _ | idx
    · have ha : anchorValue text lowText k = none := by
        unfold anchorValue
        rw [hf]
      have hstep : keywordCostScan text lowText (k :: ks) acc
          = keywordCostScan text lowText ks acc := by
        conv_lhs => unfold keywordCostScan
        rw [hf]
      have hfm : ((k :: ks).filterMap fun k2 => anchorValue text lowText k2)
          = ks.filterMap fun k2 => anchorValue text lowText k2 := by
        rw [List.filterMap_cons, ha]
      rw [hstep, hfm]
      exact ih acc hz
    · rcases hm : moneySearch ((text.drop idx).take 150) with _ | cap
      · have ha : anchorValue text lowText k = none := by
          unfold anchorValue
          rw [hf]
          dsimp only
          rw [hm]
        have hstep : keywordCostScan text lowText (k :: ks) acc
            = keywordCostScan text lowText ks acc := by
          conv_lhs => unfold keywordCostScan
          rw [hf]
          dsimp only
          rw [hm]
        have hfm : ((k :: ks).filterMap fun k2 => anchorValue text lowText k2)
            = ks.filterMap fun k2 => anchorValue text lowText k2 := by
          rw [List.filterMap_cons, ha]
        rw [hstep, hfm]
        exact ih acc hz
      · rcases hp : to_float_money cap with _ | v
        · have ha : anchorValue text lowText k = none := by
            unfold anchorValue
            rw [hf]
            dsimp only
            rw [hm]
            dsimp only
            rw [hp]
          have hstep : keywordCostScan text lowText (k :: ks) acc
              = keywordCostScan text lowText ks none := by
            conv_lhs => unfold keywordCostScan
            rw [hf]
            dsimp only
            rw [hm]
            dsimp only
            rw [hp]
            dsimp only [costPos]
            simp
          have hfm : ((k :: ks).filterMap fun k2 => anchorValue text lowText k2)
              = ks.filterMap fun k2 => anchorValue text lowText k2 := by
            rw [List.filterMap_cons, ha]
          rw [hstep, hfm]
          exact ih none (Or.inl rfl)
        · by_cases hv : 0 < v
          · have ha : anchorValue text lowText k = some v := by
              unfold anchorValue
              rw [hf]
              dsimp only
              rw [hm]
              dsimp only
              rw [hp]
              dsimp only
              rw [if_pos hv]
            have hstep : keywordCostScan text lowText (k :: ks) acc = some v := by
              conv_lhs => unfold keywordCostScan
              rw [hf]
              dsimp only
              rw [hm]
              dsimp only
              rw [hp]
              rw [if_pos (by simpa [costPos] using hv)]
            left
            refine ⟨v, ?_, hstep⟩
            rw [List.filterMap_cons, ha]
            rfl
          · have hv0 : v = 0 :=
              le_antisymm (not_lt.mp hv) (to_float_money_nonneg cap v hp)
            have ha : anchorValue text lowText k = none := by
              unfold anchorValue
              rw [hf]
              dsimp only
              rw [hm]
              dsimp only
              rw [hp]
              dsimp only
              rw [if_neg hv]
            have hstep : keywordCostScan text lowText (k :: ks) acc
                = keywordCostScan text lowText ks (some v) := by
              conv_lhs => unfold keywordCostScan
              rw [hf]
              dsimp only
              rw [hm]
              dsimp only
              rw [hp]
              rw [if_neg (by simpa [costPos] using hv)]
            have hfm : ((k :: ks).filterMap fun k2 => anchorValue text lowText k2)
                = ks.filterMap fun k2 => anchorValue text lowText k2 := by
              rw [List.filterMap_cons, ha]
            rw [hstep, hfm]
            exact ih (some v) (Or.inr (by rw [hv0]))

/-- C5 counterexample: eleven money tokens with the largest in eleventh
position and no anchor keyword.  The code takes the maximum over only the
first ten tokens (101); the claimed rule over all tokens gives 102. -/
theorem claimC5_counterexample :
    (extract_fields_from_text textElevenTokens "acord").estimated_damage_cost
      = some 101 ∧
    damageCostClaimed textElevenTokens = some 102 ∧
    (extract_fields_from_text textElevenTokens "acord").estimated_damage_cost
      ≠ damageCostClaimed textElevenTokens := by
  refine ⟨by decide, by decide, by decide⟩

/-- C5 (amended): for every text and source, the stored
estimated_damage_cost is the first positive anchor value if one exists,
else the maximum of the values above 100 among the first ten money tokens
of the text, and the field is set only when that cost is positive. -/
theorem extracted_cost_matches_amended_fallback (text : List Char) (source : String) :
    (extract_fields_from_text text source).estimated_damage_cost
      = damageCostAmended text := by
  have hproj : (extract_fields_from_text text source).estimated_damage_cost
      = guardPos (extractCost text) := rfl
  rw [hproj]
  unfold extractCost
  rcases keywordCostScan_spec text (lowerChars text) costKeywords none (Or.inl rfl) with
    ⟨v, hh, hs⟩ | ⟨hh, hz⟩
  · have hfa : firstAnchorValue text = some v := hh
    have hvpos : 0 < v := by
      have hmem : v ∈ costKeywords.filterMap
          fun k => anchorValue text (lowerChars text) k :=
        List.mem_of_mem_head? (by simp [hh])
      rcases List.mem_filterMap.mp hmem with ⟨k, _, hk⟩
      exact anchorValue_pos _ _ _ _ hk
    rw [hs, costFallback_pos text v hvpos]
    unfold damageCostAmended costResultAmended
    rw [hfa]
    simp [guardPos, hvpos]
  · have hfa : firstAnchorValue text = none := hh
    have hcond : ∀ acc : Option ℚ, acc = none ∨ acc = some 0 →
        costFallback text acc
          = match ((((moneyFindAll text).take 10).filterMap to_float_money).filter
              fun v => decide (100 < v)).max? with
            | some m => some m
            | none => acc := by
      intro acc hacc
      unfold costFallback
      rcases hacc with hacc | hacc <;> rw [hacc] <;> rw [if_pos (by simp)]
    unfold damageCostAmended costResultAmended
    rw [hfa]
    dsimp only
    rcases hmx : ((((moneyFindAll text).take 10).filterMap to_float_money).filter
        fun v => decide (100 < v)).max? with _ | m
    · rcases hz with hz | hz <;> rw [hz, hcond _ (by simp [hz])] <;> rw [hmx] <;> rfl
    · have hmem : m ∈ (((moneyFindAll text).take 10).filterMap to_float_money).filter
          fun v => decide (100 < v) := List.max?_mem max_choice hmx
      have hm100 : (100 : ℚ) < m := by
        have := List.of_mem_filter hmem
        simpa using this
      have hmpos : 0 < m := lt_trans (by norm_num) hm100
      rcases hz with hz | hz <;> rw [hz, hcond _ (by simp [hz])] <;> rw [hmx] <;>
        simp [guardPos, hmpos]

/-! Lemmas for C9. -/

theorem guardPos_pos (o : Option ℚ) (c : ℚ) (h : guardPos o = some c) : 0 < c := by
  rcases o with _ | v
  · exact Option.noConfusion h
  · unfold guardPos at h
    dsimp only at h
    split_ifs at h with hv
    exact (Option.some_inj.mp h) ▸ hv

/-- C9: the embedded extractor is a total function of the input text (the
definition itself witnesses that no exception escapes), and no parsed field
carries a sentinel colliding with a valid value: estimated_damage_cost and
total_amount are only ever set to strictly positive amounts (never 0 as a
not-found marker), injuries_reported and total_loss_flag only to 0 or 1,
and the text severity tier only to one of its three names; every other
field of the extractor dict is stored under an if-match guard and is
simply absent when its regex fails. -/
theorem extractor_never_sentinel (text : List Char) (source : String) :
    (∀ c, (extract_fields_from_text text source).estimated_damage_cost = some c → 0 < c) ∧
    (∀ c, (extract_fields_from_text text source).total_amount = some c → 0 < c) ∧
    (∀ n, (extract_fields_from_text text source).injuries_reported = some n →
      n = 0 ∨ n = 1) ∧
    (∀ n, (extract_fields_from_text text source).total_loss_flag = some n →
      n = 0 ∨ n = 1) ∧
    (∀ s, (extract_fields_from_text text source).text_severity_indicator = some s →
      s = "high" ∨ s = "medium" ∨ s = "low") := by
  refine ⟨?_, ?_, ?_, ?_, ?_⟩
  · intro c h
    have hproj : (extract_fields_from_text text source).estimated_damage_cost
        = guardPos (extractCost text) := rfl
    rw [hproj] at h
    exact guardPos_pos _ _ h
  · intro c h
    have hproj : (extract_fields_from_text text source).total_amount
        = (if source = "hospital" then guardPos (extractCost text) else none) := rfl
    rw [hproj] at h
    split_ifs at h
    exact guardPos_pos _ _ h
  · intro n h
    have hproj : (extract_fields_from_text text source).injuries_reported
        = (match searchInjury text with
           | some w => some (if w = "true".toList || w = "yes".toList || w = "1".toList
               then 1 else 0)
           | none => none) := rfl
    rw [hproj] at h
    rcases hs : searchInjury text with _ | w <;> rw [hs] at h <;> dsimp only at h
    · exact Option.noConfusion h
    · split_ifs at h <;> rw [← Option.some_inj.mp h] <;> simp
  · intro n h
    have hproj : (extract_fields_from_text text source).total_loss_flag
        = (if searchTotalLoss (["true", "yes", "1"].map String.toList) text then some 1
           else if searchTotalLoss (["false", "no", "0"].map String.toList) text then some 0
           else none) := rfl
    rw [hproj] at h
    split_ifs at h <;> rw [← Option.some_inj.mp h] <;> simp
  · intro s h
    have hproj : (extract_fields_from_text text source).text_severity_indicator
        = textSeverityOf (lowerChars text) := rfl
    rw [hproj] at h
    unfold textSeverityOf at h
    dsimp only at h
    split_ifs at h <;> rw [← Option.some_inj.mp h] <;> simp

/-- C9 witness: a text whose injuries line parses to yes, and a text whose
cost anchor yields 450, exercise the positivity and zero-or-one clauses. -/
theorem extractor_never_sentinel_witness :
    ((1 : ℤ) = 0 ∨ (1 : ℤ) = 1) ∧ (0 : ℚ) < 450 :=
  ⟨(extractor_never_sentinel "injuries reported: yes".toList "acord").2.2.1 1 (by decide),
   (extractor_never_sentinel "total amount: 450".toList "acord").1 450 (by decide)⟩

end ClaimWise
